import Mathlib

/-!
Verification development for the pasture fetch-filter-dedup-archive pipeline.

The Python sources under scrutiny are `src/core/scraper.py`, `src/core/stats.py`,
`src/main.py` and the `src/pastures/*` package.  Pure functions are translated
directly; stateful code (the statistics tracker, the processed-url set, the
output directory) is modelled by explicit state passing; fallible code returns
`Except`.  Strings are Lean `String`s; machine words in the hash are `Nat`
taken modulo `2 ^ 32`.  The behaviour of the Python standard library functions
the code calls (`urllib.parse`, `hashlib.sha256`, `str` methods) is embedded
faithfully for ASCII inputs; theorems quantifying over arbitrary strings carry
an ASCII hypothesis where the embedding of a library function is only faithful
on ASCII input (Unicode NFKC checks and locale independent case mapping are
outside the model).
-/

namespace Pasture

/-! ## Small Python string helpers (List Char level) -/

/-- Lower-case one character the way CPython `str.lower` does on ASCII input. -/
def pyLowerChar (c : Char) : Char :=
  if 'A' ≤ c ∧ c ≤ 'Z' then Char.ofNat (c.toNat + 32) else c

/-- `s.lower()` restricted to ASCII data. -/
def pyLower (s : String) : String :=
  ⟨s.data.map pyLowerChar⟩

/-- Python substring test `sub in s` on character lists: `sub` occurs
contiguously in `s` (the empty string occurs in every string). -/
def strInL : List Char → List Char → Bool
  | sub, [] => sub.isEmpty
  | sub, c :: rest => List.isPrefixOf sub (c :: rest) || strInL sub rest

/-- Python substring test `sub in s`. -/
def strIn (sub s : String) : Bool :=
  strInL sub.data s.data

/-- Python `s.startswith(p)`. -/
def pyStartsWith (s p : String) : Bool :=
  List.isPrefixOf p.data s.data

/-- Python `s.endswith(p)` for a single-character suffix. -/
def pyEndsWithChar (s : String) (c : Char) : Bool :=
  match s.data.getLast? with
  | some d => d = c
  | none => false

/-- Characters CPython `str.strip()` removes by default (ASCII whitespace). -/
def pySpace (c : Char) : Bool :=
  c = ' ' ∨ c = '\t' ∨ c = '\n' ∨ c = '\r' ∨ c = Char.ofNat 11 ∨ c = Char.ofNat 12

/-- Python `s.strip()` on ASCII data. -/
def pyStrip (s : String) : String :=
  ⟨(s.data.dropWhile pySpace).reverse.dropWhile pySpace |>.reverse⟩

/-- Python `s.split(sep)` for a single-character separator (no maxsplit). -/
def pySplitChar (s : String) (sep : Char) : List String :=
  (s.data.splitOn sep).map fun l => ⟨l⟩

/-- Split a character list at the first occurrence of `sep` into the part
before and the part after, if `sep` occurs. -/
def splitFirstChar (sep : Char) (l : List Char) : Option (List Char × List Char) :=
  match l with
  | [] => none
  | c :: rest =>
    if c = sep then some ([], rest)
    else match splitFirstChar sep rest with
      | none => none
      | some (a, b) => some (c :: a, b)

/-- Helper for `s.split(sep, maxsplit)`: split a character list at the first
occurrence of `sep`, at most `n` times. -/
def splitMaxL (sep : Char) : Nat → List Char → List (List Char)
  | 0, l => [l]
  | Nat.succ n, l =>
    match splitFirstChar sep l with
    | none => [l]
    | some (a, b) => a :: splitMaxL sep n b

/-- Python `s.split(sep, maxsplit)` for a one-character separator. -/
def pySplitMax (s : String) (sep : Char) (maxsplit : Nat) : List String :=
  (splitMaxL sep maxsplit s.data).map fun l => ⟨l⟩

/-- Last element of a split list (`lst[-1]`); split lists are never empty, and
for an empty list we return the empty string (unreachable for our inputs). -/
def listLast (l : List String) : String :=
  l.getLastD ""

/-- Membership with Python case-insensitive flavour used by the blacklist
checks: `term.lower() in text`. -/
def lowerIn (term text : String) : Bool :=
  strIn (pyLower term) text

/-! ## UTF-8 encoding (the `str.encode("utf-8")` used before hashing) -/

/-- UTF-8 encoding of one Unicode scalar value, as a list of byte values. -/
def utf8EncodeChar (c : Char) : List Nat :=
  let n := c.toNat
  if n < 0x80 then [n]
  else if n < 0x800 then [0xC0 + n / 64, 0x80 + n % 64]
  else if n < 0x10000 then [0xE0 + n / 4096, 0x80 + n / 64 % 64, 0x80 + n % 64]
  else [0xF0 + n / 262144, 0x80 + n / 4096 % 64, 0x80 + n / 64 % 64, 0x80 + n % 64]

/-- `s.encode("utf-8")` as a list of byte values. -/
def utf8Bytes (s : String) : List Nat :=
  s.data.foldr (fun c acc => utf8EncodeChar c ++ acc) []

/-! ## SHA-256 (`hashlib.sha256(...).hexdigest()`)

Words are `Nat` reduced modulo `2 ^ 32` at every arithmetic step.  All
recursions are structural so that the kernel can evaluate digests of concrete
inputs. -/

namespace Sha256

/-- Right rotation of a 32-bit word. -/
def rotr (n x : Nat) : Nat :=
  (x / 2 ^ n + x % 2 ^ n * 2 ^ (32 - n)) % 2 ^ 32

/-- Bitwise complement within 32 bits. -/
def compl32 (x : Nat) : Nat := x ^^^ 0xFFFFFFFF

def bigSigma0 (x : Nat) : Nat := rotr 2 x ^^^ rotr 13 x ^^^ rotr 22 x

def bigSigma1 (x : Nat) : Nat := rotr 6 x ^^^ rotr 11 x ^^^ rotr 25 x

def smallSigma0 (x : Nat) : Nat := rotr 7 x ^^^ rotr 18 x ^^^ x / 2 ^ 3

def smallSigma1 (x : Nat) : Nat := rotr 17 x ^^^ rotr 19 x ^^^ x / 2 ^ 10

def ch (x y z : Nat) : Nat := x &&& y ^^^ compl32 x &&& z

def maj (x y z : Nat) : Nat := x &&& y ^^^ x &&& z ^^^ y &&& z

/-- The 64 SHA-256 round constants (FIPS 180-4, written in decimal). -/
def K : List Nat :=
  [1116352408, 1899447441, 3049323471, 3921009573, 961987163, 1508970993,
   2453635748, 2870763221, 3624381080, 310598401, 607225278, 1426881987,
   1925078388, 2162078206, 2614888103, 3248222580, 3835390401, 4022224774,
   264347078, 604807628, 770255983, 1249150122, 1555081692, 1996064986,
   2554220882, 2821834349, 2952996808, 3210313671, 3336571891, 3584528711,
   113926993, 338241895, 666307205, 773529912, 1294757372, 1396182291,
   1695183700, 1986661051, 2177026350, 2456956037, 2730485921, 2820302411,
   3259730800, 3345764771, 3516065817, 3600352804, 4094571909, 275423344,
   430227734, 506948616, 659060556, 883997877, 958139571, 1322822218,
   1537002063, 1747873779, 1955562222, 2024104815, 2227730452, 2361852424,
   2428436474, 2756734187, 3204031479, 3329325298]

/-- The initial hash value (FIPS 180-4, written in decimal). -/
def H0 : List Nat :=
  [1779033703, 3144134277, 1013904242, 2773480762,
   1359893119, 2600822924, 528734635, 1541459225]

/-- Big-endian 8-byte encoding of the bit length. -/
def lengthBytes64 (n : Nat) : List Nat :=
  [n / 2 ^ 56 % 256, n / 2 ^ 48 % 256, n / 2 ^ 40 % 256, n / 2 ^ 32 % 256,
   n / 2 ^ 24 % 256, n / 2 ^ 16 % 256, n / 2 ^ 8 % 256, n % 256]

/-- SHA-256 padding: append `0x80`, zeros up to 56 mod 64, then the 64-bit
big-endian bit length. -/
def padMessage (ms : List Nat) : List Nat :=
  let l := ms.length
  let k := (119 - l % 64) % 64
  ms ++ 0x80 :: (List.replicate k 0 ++ lengthBytes64 (l * 8))

/-- Group bytes 4 at a time into big-endian 32-bit words. -/
def toWords : List Nat → List Nat
  | b0 :: b1 :: b2 :: b3 :: rest =>
    (b0 * 2 ^ 24 + b1 * 2 ^ 16 + b2 * 2 ^ 8 + b3) :: toWords rest
  | _ => []

/-- Split a byte list into 64-byte chunks (fuel-based so the kernel can
reduce it). -/
def splitChunksAux : Nat → List Nat → List (List Nat)
  | 0, _ => []
  | _, [] => []
  | fuel + 1, l => l.take 64 :: splitChunksAux fuel (l.drop 64)

def splitChunks (l : List Nat) : List (List Nat) :=
  splitChunksAux l.length l

/-- Message-schedule extension: `acc` holds the schedule so far, newest word
first; run `n` more steps. -/
def extendSchedule : Nat → List Nat → List Nat
  | 0, acc => acc
  | n + 1, acc =>
    let w :=
      (smallSigma1 (acc.getD 1 0) + acc.getD 6 0 + smallSigma0 (acc.getD 14 0) + acc.getD 15 0)
        % 2 ^ 32
    extendSchedule n (w :: acc)

/-- The full 64-word message schedule of one 16-word chunk. -/
def schedule (chunkWords : List Nat) : List Nat :=
  (extendSchedule 48 chunkWords.reverse).reverse

/-- Working state of the compression function. -/
structure WorkState where
  a : Nat
  b : Nat
  c : Nat
  d : Nat
  e : Nat
  f : Nat
  g : Nat
  hh : Nat

def stateOfList (l : List Nat) : WorkState :=
  ⟨l.getD 0 0, l.getD 1 0, l.getD 2 0, l.getD 3 0, l.getD 4 0, l.getD 5 0, l.getD 6 0, l.getD 7 0⟩

/-- One compression round with round constant `k` and schedule word `w`. -/
def round (s : WorkState) (kw : Nat × Nat) : WorkState :=
  let t1 := (s.hh + bigSigma1 s.e + ch s.e s.f s.g + kw.1 + kw.2) % 2 ^ 32
  let t2 := (bigSigma0 s.a + maj s.a s.b s.c) % 2 ^ 32
  ⟨(t1 + t2) % 2 ^ 32, s.a, s.b, s.c, (s.d + t1) % 2 ^ 32, s.e, s.f, s.g⟩

/-- Compress one 16-word chunk into the running hash value. -/
def compress (hs : List Nat) (chunkWords : List Nat) : List Nat :=
  let w := schedule chunkWords
  let fin := (K.zip w).foldl round (stateOfList hs)
  List.zipWith (fun x y => (x + y) % 2 ^ 32) hs
    [fin.a, fin.b, fin.c, fin.d, fin.e, fin.f, fin.g, fin.hh]

/-- Big-endian byte decomposition of one 32-bit word. -/
def wordBytesBE (w : Nat) : List Nat :=
  [w / 2 ^ 24 % 256, w / 2 ^ 16 % 256, w / 2 ^ 8 % 256, w % 256]

/-- SHA-256 digest of a byte list, as 32 bytes. -/
def digestBytes (ms : List Nat) : List Nat :=
  let hs := (splitChunks (padMessage ms)).foldl (fun h chunk => compress h (toWords chunk)) H0
  hs.foldr (fun w acc => wordBytesBE w ++ acc) []

/-- One lowercase hexadecimal digit. -/
def nibble (n : Nat) : Char :=
  if n < 10 then Char.ofNat (48 + n) else Char.ofNat (87 + n)

/-- Lowercase hex rendering of a byte. -/
def hexOfByte (b : Nat) : List Char := [nibble (b / 16), nibble (b % 16)]

/-- `hashlib.sha256(bytes).hexdigest()`. -/
def hexDigest (ms : List Nat) : String :=
  ⟨(digestBytes ms).foldr (fun b acc => hexOfByte b ++ acc) []⟩

end Sha256

/-! ## urllib.parse model

Embedding of the parts of CPython `urllib.parse` exercised by
`core/scraper.py::normalize_url`: `urlparse`/`urlunparse` (via
`urlsplit`/`urlunsplit` and parameter splitting), `parse_qs`, `urlencode`
with `doseq=True`, `quote_plus` and `unquote`.  The Unicode NFKC check of
`_checknetloc` only fires for non-ASCII netlocs and is modelled as accepting;
every theorem quantifying over URLs therefore restricts to ASCII input. -/

namespace UrlLib

/-- Further helper: Python `s.endswith(p)` for arbitrary suffixes. -/
def pyEndsWith (s p : String) : Bool :=
  List.isSuffixOf p.data s.data

/-- Split a character list at the last occurrence of `sep` (before, after). -/
def splitLastChar (sep : Char) (l : List Char) : Option (List Char × List Char) :=
  match splitFirstChar sep l.reverse with
  | none => none
  | some (a, b) => some (b.reverse, a.reverse)

/-- Take the longest stop-free head segment: returns the part before the first
character satisfying `stop` and the rest starting with it. -/
def spanUntil (stop : Char → Bool) (l : List Char) : List Char × List Char :=
  (l.takeWhile (fun c => ¬ stop c), l.dropWhile (fun c => ¬ stop c))

/-- Characters allowed in a URL scheme (`urllib.parse.scheme_chars`). -/
def schemeChar (c : Char) : Bool :=
  ('a' ≤ c ∧ c ≤ 'z') ∨ ('A' ≤ c ∧ c ≤ 'Z') ∨ ('0' ≤ c ∧ c ≤ '9') ∨ c = '+' ∨ c = '-' ∨ c = '.'

/-- ASCII letter test (`url[0].isascii() and url[0].isalpha()`). -/
def asciiAlpha (c : Char) : Bool :=
  ('a' ≤ c ∧ c ≤ 'z') ∨ ('A' ≤ c ∧ c ≤ 'Z')

/-- `urllib.parse.uses_params` (CPython 3.11). -/
def usesParams : List String :=
  ["", "ftp", "hdl", "prospero", "http", "imap", "https", "shttp", "rtsp", "rtsps",
   "rtspu", "sip", "sips", "mms", "sftp", "tel"]

/-- `urllib.parse.uses_netloc` (CPython 3.11). -/
def usesNetloc : List String :=
  ["", "ftp", "http", "gopher", "nntp", "telnet", "imap", "wais", "file", "mms",
   "https", "shttp", "snews", "prospero", "rtsp", "rtsps", "rtspu", "rsync", "svn",
   "svn+ssh", "sftp", "nfs", "git", "git+ssh", "ws", "wss"]

/-- Result of `urlsplit`. -/
structure SplitResult where
  scheme : String
  netloc : String
  path : String
  query : String
  fragment : String
deriving Repr, DecidableEq

/-- Result of `urlparse`. -/
structure ParseResult where
  scheme : String
  netloc : String
  path : String
  params : String
  query : String
  fragment : String
deriving Repr, DecidableEq

/-- `_UNSAFE_URL_BYTES_TO_REMOVE`: tab, carriage return and newline are
deleted from the URL before splitting. -/
def removeUnsafeBytes (l : List Char) : List Char :=
  l.filter fun c => ¬ (c = '\t' ∨ c = '\r' ∨ c = '\n')

/-- `url.lstrip(_WHATWG_C0_CONTROL_OR_SPACE)`: strip leading C0 control
characters and spaces (code points up to `0x20`). -/
def lstripControl (l : List Char) : List Char :=
  l.dropWhile fun c => c.toNat ≤ 0x20

/-- Scheme detection step of `urlsplit`: split `scheme:rest` when the part
before the first colon is a nonempty valid scheme starting with an ASCII
letter; the scheme is lower-cased. -/
def splitScheme (l : List Char) : List Char × List Char :=
  match splitFirstChar ':' l with
  | none => ([], l)
  | some (before, after) =>
    if before ≠ [] ∧ asciiAlpha (before.headD ' ') ∧ before.all schemeChar then
      (before.map pyLowerChar, after)
    else ([], l)

/-- Hexadecimal digit test (both cases, as in `_hextobyte`). -/
def isHexDigitChar (c : Char) : Bool :=
  ('0' ≤ c ∧ c ≤ '9') ∨ ('a' ≤ c ∧ c ≤ 'f') ∨ ('A' ≤ c ∧ c ≤ 'F')

/-- Decimal digit test. -/
def isDigitChar (c : Char) : Bool := '0' ≤ c ∧ c ≤ '9'

/-- Numeric value of a hexadecimal digit. -/
def hexVal (c : Char) : Nat :=
  if '0' ≤ c ∧ c ≤ '9' then c.toNat - 48
  else if 'a' ≤ c ∧ c ≤ 'f' then c.toNat - 87
  else if 'A' ≤ c ∧ c ≤ 'F' then c.toNat - 55
  else 0

/-- One 1-to-4 digit hexadecimal group of an IPv6 address. -/
def isHextet (l : List Char) : Bool :=
  decide (1 ≤ l.length) && decide (l.length ≤ 4) && l.all isHexDigitChar

/-- One decimal octet of an IPv4 address as `ipaddress` accepts it
(1-3 digits, value below 256, no leading zero). -/
def isIpv4Octet (l : List Char) : Bool :=
  decide (1 ≤ l.length) && decide (l.length ≤ 3) && l.all isDigitChar &&
    (match l with
     | '0' :: _ :: _ => false
     | _ => true) &&
    decide (l.foldl (fun acc c => acc * 10 + (c.toNat - 48)) 0 ≤ 255)

/-- Split a character list on every occurrence of `sep`. -/
def splitAllChar (sep : Char) (l : List Char) : List (List Char) :=
  match l with
  | [] => [[]]
  | c :: rest =>
    let r := splitAllChar sep rest
    if c = sep then [] :: r
    else
      match r with
      | [] => [[c]]
      | a :: t => (c :: a) :: t

/-- Dotted-quad IPv4 literal. -/
def isIpv4 (l : List Char) : Bool :=
  match splitAllChar '.' l with
  | [a, b, c, d] => isIpv4Octet a && isIpv4Octet b && isIpv4Octet c && isIpv4Octet d
  | _ => false

/-- Validity of the hextet parts of an IPv6 address after resolving a
possible trailing IPv4 quad: `parts` with an optional single empty run for
`::`, as in `ipaddress.IPv6Address._ip_int_from_string`. -/
def ipv6PartsOk (parts : List (List Char)) : Bool :=
  let n := parts.length
  if n < 3 then false
  else
    let emptyIdx := (List.range n).filter fun i =>
      decide (0 < i) && decide (i < n - 1) && (parts.getD i ['!']).isEmpty
    match emptyIdx with
    | [] =>
      decide (n = 8) && ! (parts.headD []).isEmpty && ! (parts.getLastD []).isEmpty &&
        parts.all isHextet
    | [i] =>
      let partsHi := if (parts.headD []).isEmpty then i - 1 else i
      let partsLo := if (parts.getLastD []).isEmpty then n - i - 2 else n - i - 1
      (! (parts.headD []).isEmpty || decide (partsHi = 0)) &&
      (! (parts.getLastD []).isEmpty || decide (partsLo = 0)) &&
      decide (partsHi + partsLo + 1 ≤ 8) &&
      ((parts.take i).all fun p => p.isEmpty || isHextet p) &&
      ((parts.drop (i + 1)).all fun p => p.isEmpty || isHextet p)
    | _ => false

/-- Textual IPv6 address (with possible embedded trailing IPv4 quad). -/
def isIpv6 (l : List Char) : Bool :=
  let parts := splitAllChar ':' l
  match parts.getLast? with
  | none => false
  | some lastPart =>
    if lastPart.contains '.' then
      isIpv4 lastPart && ipv6PartsOk (parts.dropLast ++ [['0'], ['0']])
    else
      ipv6PartsOk parts

/-- `ipaddress.ip_address` acceptance of a bracketed host, with the rule of
`_check_bracketed_host`: an IPv4 literal inside brackets is rejected, an
IPvFuture `v<hex>.<something>` literal is accepted. -/
def bracketedHostOk (hostname : List Char) : Bool :=
  match hostname with
  | 'v' :: rest =>
    match splitFirstChar '.' rest with
    | some (hexpart, tailpart) =>
      decide (1 ≤ hexpart.length) && hexpart.all isHexDigitChar && ! tailpart.isEmpty
    | none => false
  | _ =>
    match splitFirstChar '%' hostname with
    | some (addr, scope) => ! scope.isEmpty && ! scope.contains '%' && isIpv6 addr
    | none => isIpv6 hostname

/-- `urlsplit`.  Returns `Except` to model the `ValueError`s raised on
malformed IPv6 netlocs.  The NFKC check of `_checknetloc` fires only for
non-ASCII netlocs and is modelled as accepting. -/
def urlsplitE (s : String) : Except String SplitResult :=
  let url0 := removeUnsafeBytes (lstripControl s.data)
  let (scheme, url1) := splitScheme url0
  let (netloc, url2) :=
    if List.isPrefixOf ['/', '/'] url1 then
      spanUntil (fun c => c = '/' ∨ c = '?' ∨ c = '#') (url1.drop 2)
    else ([], url1)
  if (netloc.contains '[' ∧ ¬ netloc.contains ']') ∨
     (netloc.contains ']' ∧ ¬ netloc.contains '[') then
    .error "Invalid IPv6 URL"
  else if netloc.contains '[' ∧ netloc.contains ']' ∧
      ¬ bracketedHostOk
        ((match splitFirstChar '[' netloc with
          | some (_, after) => after
          | none => []).takeWhile (· ≠ ']')) then
    .error "invalid bracketed host"
  else
    let (url3, fragment) :=
      match splitFirstChar '#' url2 with
      | some (a, b) => (a, b)
      | none => (url2, [])
    let (url4, query) :=
      match splitFirstChar '?' url3 with
      | some (a, b) => (a, b)
      | none => (url3, [])
    .ok ⟨⟨scheme⟩, ⟨netloc⟩, ⟨url4⟩, ⟨query⟩, ⟨fragment⟩⟩

/-- `_splitparams`: split path parameters after the last `/`. -/
def splitparams (l : List Char) : List Char × List Char :=
  if l.contains '/' then
    match splitLastChar '/' l with
    | some (a, b) =>
      match splitFirstChar ';' b with
      | none => (l, [])
      | some (b1, b2) => (a ++ '/' :: b1, b2)
    | none => (l, [])
  else
    match splitFirstChar ';' l with
    | none => (l, [])
    | some (x, y) => (x, y)

/-- `urlparse`: `urlsplit` plus parameter splitting for schemes that use
path parameters. -/
def urlparseE (s : String) : Except String ParseResult := do
  let r ← urlsplitE s
  if r.scheme ∈ usesParams ∧ r.path.data.contains ';' then
    let (p, params) := splitparams r.path.data
    return ⟨r.scheme, r.netloc, ⟨p⟩, ⟨params⟩, r.query, r.fragment⟩
  else
    return ⟨r.scheme, r.netloc, r.path, "", r.query, r.fragment⟩

/-- `urlunsplit` (CPython 3.11: the netloc marker is re-added when a netloc
is present, or when the scheme is a known netloc-using scheme and the path
does not already begin with `//`). -/
def urlunsplit (scheme netloc path query fragment : String) : String :=
  let url := path
  let url :=
    if netloc ≠ "" ∨ (scheme ≠ "" ∧ scheme ∈ usesNetloc ∧ ¬ pyStartsWith url "//") then
      let url2 := if url ≠ "" ∧ ¬ pyStartsWith url "/" then "/" ++ url else url
      "//" ++ netloc ++ url2
    else url
  let url := if scheme ≠ "" then scheme ++ ":" ++ url else url
  let url := if query ≠ "" then url ++ "?" ++ query else url
  if fragment ≠ "" then url ++ "#" ++ fragment else url

/-- `urlunparse`. -/
def urlunparse (r : ParseResult) : String :=
  let url := if r.params ≠ "" then r.path ++ ";" ++ r.params else r.path
  urlunsplit r.scheme r.netloc url r.query r.fragment

/-! ### Percent-quoting (`quote`, `quote_plus`, `unquote`) -/

/-- Bytes never quoted (`_ALWAYS_SAFE`: letters, digits, `_.-~`). -/
def alwaysSafeByte (b : Nat) : Bool :=
  (65 ≤ b ∧ b ≤ 90) ∨ (97 ≤ b ∧ b ≤ 122) ∨ (48 ≤ b ∧ b ≤ 57) ∨
    b = 95 ∨ b = 46 ∨ b = 45 ∨ b = 126

/-- One uppercase hexadecimal digit (as in the `%XX` escapes of `quote`). -/
def nibbleUpper (n : Nat) : Char :=
  if n < 10 then Char.ofNat (48 + n) else Char.ofNat (55 + n)

/-- Rendering of one byte by `quote_from_bytes` with extra safe characters
`safe`. -/
def quoteByte (safe : List Char) (b : Nat) : List Char :=
  if alwaysSafeByte b ∨ (b < 128 ∧ Char.ofNat b ∈ safe) then [Char.ofNat b]
  else ['%', nibbleUpper (b / 16), nibbleUpper (b % 16)]

/-- `quote(string, safe)` for a text `string`: UTF-8 encode, then render each
byte. -/
def quote (safe : List Char) (s : String) : String :=
  ⟨(utf8Bytes s).foldr (fun b acc => quoteByte safe b ++ acc) []⟩

/-- `quote_plus(string)` with the default empty `safe` set, as `urlencode`
calls it: spaces become `+`, everything unsafe is percent-escaped. -/
def quotePlus (s : String) : String :=
  if strIn " " s then
    ⟨(quote [' '] s).data.map fun c => if c = ' ' then '+' else c⟩
  else quote [] s

/-- `unquote_to_bytes` on an ASCII character run: `%XX` with two hex digits
becomes a byte, everything else is kept literally.  (CPython splits on `%`
and consults a hex table; this scanner is behaviourally identical.) -/
def unquoteToBytes : List Char → List Nat
  | [] => []
  | '%' :: a :: b :: rest =>
    if isHexDigitChar a ∧ isHexDigitChar b then
      (hexVal a * 16 + hexVal b) :: unquoteToBytes rest
    else 37 :: unquoteToBytes (a :: b :: rest)
  | '%' :: rest => 37 :: unquoteToBytes rest
  | c :: rest => c.toNat :: unquoteToBytes rest

/-- Continuation byte test for UTF-8 decoding. -/
def isContByte (b : Nat) : Bool := 0x80 ≤ b ∧ b ≤ 0xBF

/-- The U+FFFD replacement character. -/
def replChar : Char := Char.ofNat 0xFFFD

/-- UTF-8 decoding with the `replace` error handler: each maximal invalid
prefix is replaced by one U+FFFD, as `bytes.decode("utf-8", "replace")`
does on the sequences reachable here (every theorem only exercises the
valid-sequence paths). -/
def utf8DecodeReplace : List Nat → List Char
  | [] => []
  | b :: rest =>
    if b < 0x80 then Char.ofNat b :: utf8DecodeReplace rest
    else if 0xC2 ≤ b ∧ b ≤ 0xDF then
      match rest with
      | b1 :: rest2 =>
        if isContByte b1 then
          Char.ofNat ((b - 0xC0) * 64 + (b1 - 0x80)) :: utf8DecodeReplace rest2
        else replChar :: utf8DecodeReplace (b1 :: rest2)
      | [] => [replChar]
    else if 0xE0 ≤ b ∧ b ≤ 0xEF then
      match rest with
      | b1 :: rest2 =>
        if (b = 0xE0 ∧ 0xA0 ≤ b1 ∧ b1 ≤ 0xBF) ∨
           (0xE1 ≤ b ∧ b ≤ 0xEC ∧ isContByte b1) ∨
           (b = 0xED ∧ 0x80 ≤ b1 ∧ b1 ≤ 0x9F) ∨
           (0xEE ≤ b ∧ b ≤ 0xEF ∧ isContByte b1) then
          match rest2 with
          | b2 :: rest3 =>
            if isContByte b2 then
              Char.ofNat ((b - 0xE0) * 4096 + (b1 - 0x80) * 64 + (b2 - 0x80)) ::
                utf8DecodeReplace rest3
            else replChar :: utf8DecodeReplace (b2 :: rest3)
          | [] => [replChar]
        else replChar :: utf8DecodeReplace (b1 :: rest2)
      | [] => [replChar]
    else if 0xF0 ≤ b ∧ b ≤ 0xF4 then
      match rest with
      | b1 :: rest2 =>
        if (b = 0xF0 ∧ 0x90 ≤ b1 ∧ b1 ≤ 0xBF) ∨
           (0xF1 ≤ b ∧ b ≤ 0xF3 ∧ isContByte b1) ∨
           (b = 0xF4 ∧ 0x80 ≤ b1 ∧ b1 ≤ 0x8F) then
          match rest2 with
          | b2 :: rest3 =>
            if isContByte b2 then
              match rest3 with
              | b3 :: rest4 =>
                if isContByte b3 then
                  Char.ofNat
                      ((b - 0xF0) * 262144 + (b1 - 0x80) * 4096 +
                        (b2 - 0x80) * 64 + (b3 - 0x80)) ::
                    utf8DecodeReplace rest4
                else replChar :: utf8DecodeReplace (b3 :: rest4)
              | [] => [replChar]
            else replChar :: utf8DecodeReplace (b2 :: rest3)
          | [] => [replChar]
        else replChar :: utf8DecodeReplace (b1 :: rest2)
      | [] => [replChar]
    else replChar :: utf8DecodeReplace rest

/-- ASCII test used by the `_asciire` run splitting of `unquote`. -/
def isAsciiChar (c : Char) : Bool := c.toNat ≤ 0x7F

/-- Body of `unquote`: maximal ASCII runs are percent-decoded and UTF-8
decoded; non-ASCII characters pass through unchanged.  Fuel-based recursion
(the fuel is the length of the input) so the kernel can evaluate it. -/
def unquoteRunsAux : Nat → List Char → List Char
  | 0, _ => []
  | _, [] => []
  | fuel + 1, c :: rest =>
    if isAsciiChar c then
      utf8DecodeReplace (unquoteToBytes ((c :: rest).takeWhile isAsciiChar)) ++
        unquoteRunsAux fuel ((c :: rest).dropWhile isAsciiChar)
    else c :: unquoteRunsAux fuel rest

/-- `unquote(string)` with the default UTF-8/`replace` parameters. -/
def unquote (s : String) : String :=
  if ¬ strIn "%" s then s
  else ⟨unquoteRunsAux s.data.length s.data⟩

/-! ### Query-string handling (`parse_qs`, `urlencode(..., doseq=True)`) -/

/-- `name_value.replace('+', ' ')`. -/
def plusToSpace (s : String) : String :=
  ⟨s.data.map fun c => if c = '+' then ' ' else c⟩

/-- `parse_qsl(qs, keep_blank_values=keepBlank)` with the default `&`
separator. -/
def parseQsl (qs : String) (keepBlank : Bool) : List (String × String) :=
  if qs = "" then []
  else
    (splitAllChar '&' qs.data).foldr
      (fun nameValue acc =>
        if nameValue.isEmpty then acc
        else
          match splitFirstChar '=' nameValue with
          | some (n, v) =>
            if v ≠ [] ∨ keepBlank then
              (unquote (plusToSpace ⟨n⟩), unquote (plusToSpace ⟨v⟩)) :: acc
            else acc
          | none =>
            if keepBlank then (unquote (plusToSpace ⟨nameValue⟩), "") :: acc
            else acc)
      []

/-- Append one value to a key of an insertion-ordered multi-dict, adding the
key at the end when it is new (Python dict insertion semantics). -/
def insertQs (acc : List (String × List String)) (k v : String) :
    List (String × List String) :=
  match acc with
  | [] => [(k, [v])]
  | (k0, vs) :: rest =>
    if k0 = k then (k0, vs ++ [v]) :: rest
    else (k0, vs) :: insertQs rest k v

/-- `parse_qs(qs, keep_blank_values=True)` as an insertion-ordered
association list. -/
def parseQs (qs : String) : List (String × List String) :=
  (parseQsl qs true).foldl (fun acc kv => insertQs acc kv.1 kv.2) []

/-- A Python value that is either a single string or a list of strings
(`value[0] if len(value) == 1 else value`). -/
inductive PyVal where
  | str (s : String)
  | list (l : List String)
deriving Repr, DecidableEq

/-- `urlencode(query, doseq=True)` over an insertion-ordered association
list. -/
def urlencodeDoseq (q : List (String × PyVal)) : String :=
  String.intercalate "&"
    (q.foldr
      (fun kv acc =>
        let ks := quotePlus kv.1
        match kv.2 with
        | .str s => (ks ++ "=" ++ quotePlus s) :: acc
        | .list l => l.map (fun e => ks ++ "=" ++ quotePlus e) ++ acc)
      [])

end UrlLib

/-! ## core/scraper.py: URL normalization, hashing and media detection -/

namespace Scraper

/-- The tracking-parameter denylist of `normalize_url` (in source order;
the source lists `ito` twice). -/
def trackingParams : List String :=
  ["utm_source", "utm_medium", "utm_campaign", "utm_term", "utm_content",
   "ref", "source", "medium", "campaign", "content", "term",
   "fbclid", "gclid", "msclkid", "trk", "tracking", "si", "igshid",
   "feature", "share", "mc_cid", "mc_eid", "_hsenc", "_hsmi",
   "hsCtaTracking", "mkt_tok", "pk_source", "pk_medium", "pk_campaign",
   "pk_keyword", "pk_content", "ncid", "CMP", "cmpid", "ito", "ito",
   "nr_email_referer", "via", "from", "shared", "fb_action_ids", "fb_ref",
   "wt_mc", "wt_zmc", "wt_zsrc", "CNDID", "mbid", "linkCode", "tag",
   "linkId", "creativeASIN", "ascsubtag", "psc", "ved", "ei", "gs_lcp",
   "oq", "aqs", "sourceid", "ie", "rlz", "gws_rd", "sa", "esrc", "form"]

/-- The query-filtering loop of `normalize_url`: drop every parameter whose
lower-cased name is in the lower-cased denylist, unwrap single values. -/
def filterTrackingParams (qp : List (String × List String)) :
    List (String × UrlLib.PyVal) :=
  qp.foldr
    (fun kv acc =>
      if (trackingParams.map pyLower).contains (pyLower kv.1) then acc
      else
        (kv.1,
          match kv.2 with
          | [v] => UrlLib.PyVal.str v
          | l => UrlLib.PyVal.list l) :: acc)
    []

/-- Python `s.rstrip("/")`: remove every trailing slash. -/
def rstripSlashes (s : String) : String :=
  ⟨(s.data.reverse.dropWhile (· = '/')).reverse⟩

/-- The query rebuilding step of `normalize_url`: filter tracking
parameters when a query is present, otherwise keep the empty query. -/
def newQueryOf (pr : UrlLib.ParseResult) : String :=
  if pr.query ≠ "" then
    UrlLib.urlencodeDoseq (filterTrackingParams (UrlLib.parseQs pr.query))
  else ""

/-- The final trailing-slash removal of `normalize_url`
(`if normalized.endswith("/") and len(normalized) > 1`). -/
def finalSlashStrip (normalized : String) : String :=
  if pyEndsWithChar normalized '/' ∧ normalized.length > 1 then
    rstripSlashes normalized
  else normalized

/-- The body of `normalize_url` after a successful parse. -/
def normalizeParsed (pr : UrlLib.ParseResult) : String :=
  finalSlashStrip (UrlLib.urlunparse { pr with query := newQueryOf pr })

/-- `core/scraper.py::normalize_url`. -/
def normalize_url (url : String) : String :=
  match UrlLib.urlparseE url with
  | .error _ => url
  | .ok pr => normalizeParsed pr

/-- `core/scraper.py::hash_url`: SHA-256 of the normalized URL. -/
def hash_url (url : String) : String :=
  Sha256.hexDigest (utf8Bytes (normalize_url url))

def mediaExtensions : List String :=
  [".png", ".jpg", ".jpeg", ".gif", ".webp", ".mp4", ".avi", ".mov", ".mkv", ".webm"]

def mediaDomains : List String := ["v.redd.it", "i.redd.it"]

/-- `core/scraper.py::is_media_url`. -/
def is_media_url (url : String) : Bool :=
  mediaExtensions.any (fun ext => UrlLib.pyEndsWith (pyLower url) ext) ||
    mediaDomains.any (fun d => strIn d url)

end Scraper

/-! ## pastures/base: dedup hashing and tag/blacklist resolution -/

namespace Base

/-- `Pasture.hash_url` (pastures/base): SHA-256 of the URL as given, with no
normalization. -/
def hash_url (url : String) : String :=
  Sha256.hexDigest (utf8Bytes url)

/-- `Pasture.should_scrape_url`: scrape iff the raw-URL hash is not in the
processed set. -/
def should_scrape_url (url : String) (processedUrls : List String) : Bool :=
  ! processedUrls.contains (hash_url url)

/-- `Pasture.mark_url_processed`: add the raw-URL hash to the processed set
(`set.add`; the list model inserts only when absent). -/
def mark_url_processed (url : String) (processedUrls : List String) : List String :=
  if processedUrls.contains (hash_url url) then processedUrls
  else hash_url url :: processedUrls

/-- The global section of a pasture configuration (`config["global"]`,
when such a key exists in the mapping handed to the pasture). -/
structure GlobalConfig where
  blacklist : Option String := none
  remove_tags : Option String := none
deriving Repr, DecidableEq

/-- A pasture configuration: the flat string mapping built by `main.py`
(restricted to the keys the embedded code reads), plus the optional
`"global"` sub-mapping that `get_tags_to_remove` looks for. -/
structure Config where
  url : Option String := none
  ptype : Option String := none
  blacklist : Option String := none
  remove_tags : Option String := none
  globalCfg : Option GlobalConfig := none
deriving Repr, DecidableEq

/-- Split a comma-separated configuration value and strip each entry,
keeping the nonempty ones (the common loop shape in `get_tags_to_remove`). -/
def splitStripNonempty (s : String) : List String :=
  ((pySplitChar s ',').map pyStrip).filter (fun t => t ≠ "")

/-- `Pasture.get_tags_to_remove`.  The final Python `list(set(...))` has
unspecified order; it is modelled as first-occurrence deduplication, and
theorems only rely on membership. -/
def get_tags_to_remove (cfg : Config) : List String :=
  let pairs :=
    match cfg.remove_tags with
    | none => ([], [])
    | some v =>
      ((pySplitChar v ',').map pyStrip).foldr
        (fun tag acc =>
          if tag ≠ "" then
            if pyStartsWith tag "-" then ((String.mk (tag.data.drop 1)) :: acc.1, acc.2)
            else (acc.1, tag :: acc.2)
          else acc)
        ([], [])
  let tagsToKeep := pairs.1
  let tagsToRemove := pairs.2
  let globalTags :=
    match cfg.globalCfg with
    | some g =>
      match g.remove_tags with
      | some v => splitStripNonempty v
      | none => []
    | none => []
  let effectiveGlobal := globalTags.filter (fun t => t ∉ tagsToKeep)
  (effectiveGlobal ++ tagsToRemove).dedup

/-- Modelled from the spec: `Pasture.get_blacklist` is called by
`filter_posts` (reddit, hackernews) and by `scrape_pasture`, but no
definition appears anywhere in the sources.  Section 4.5 of the spec states
that `getBlacklist` is resolved exactly like `getTagsToRemove`: the global
list merged with the source list, a `-term` source entry removing the term
from the effective global set, the rest unioned with duplicates removed.
This mirrors `get_tags_to_remove` over the `blacklist` key. -/
def get_blacklist (cfg : Config) : List String :=
  let pairs :=
    match cfg.blacklist with
    | none => ([], [])
    | some v =>
      ((pySplitChar v ',').map pyStrip).foldr
        (fun term acc =>
          if term ≠ "" then
            if pyStartsWith term "-" then ((String.mk (term.data.drop 1)) :: acc.1, acc.2)
            else (acc.1, term :: acc.2)
          else acc)
        ([], [])
  let termsToKeep := pairs.1
  let termsLocal := pairs.2
  let globalTerms :=
    match cfg.globalCfg with
    | some g =>
      match g.blacklist with
      | some v => splitStripNonempty v
      | none => []
    | none => []
  let effectiveGlobal := globalTerms.filter (fun t => t ∉ termsToKeep)
  (effectiveGlobal ++ termsLocal).dedup

end Base

/-! ## core/stats.py: the session statistics tracker -/

namespace Stats

/-- The session counters of `StatsTracker` (file persistence is out of the
embedded core; `defaultdict(int)` fields are insertion-ordered count lists). -/
structure StatsTracker where
  articles_scraped : Nat := 0
  articles_skipped_duplicate : Nat := 0
  articles_rejected_blacklist : Nat := 0
  blacklist_hits_by_term : List (String × Nat) := []
  articles_by_source : List (String × Nat) := []
  errors : Nat := 0
  sources_processed : List String := []
deriving Repr, DecidableEq

/-- `defaultdict(int)` increment. -/
def bump (l : List (String × Nat)) (k : String) : List (String × Nat) :=
  match l with
  | [] => [(k, 1)]
  | (k0, n) :: rest => if k0 = k then (k0, n + 1) :: rest else (k0, n) :: bump rest k

/-- Lookup in a count list (`defaultdict(int)` read). -/
def getCount (l : List (String × Nat)) (k : String) : Nat :=
  match l with
  | [] => 0
  | (k0, n) :: rest => if k0 = k then n else getCount rest k

/-- `StatsTracker.increment_scraped`. -/
def increment_scraped (source : String) (st : StatsTracker) : StatsTracker :=
  { st with
    articles_scraped := st.articles_scraped + 1
    articles_by_source := bump st.articles_by_source source }

/-- `StatsTracker.increment_duplicate`. -/
def increment_duplicate (st : StatsTracker) : StatsTracker :=
  { st with articles_skipped_duplicate := st.articles_skipped_duplicate + 1 }

/-- `StatsTracker.increment_blacklisted`. -/
def increment_blacklisted (term : String) (st : StatsTracker) : StatsTracker :=
  { st with
    articles_rejected_blacklist := st.articles_rejected_blacklist + 1
    blacklist_hits_by_term := bump st.blacklist_hits_by_term term }

/-- `StatsTracker.increment_error`. -/
def increment_error (st : StatsTracker) : StatsTracker :=
  { st with errors := st.errors + 1 }

/-- `StatsTracker.add_source`. -/
def add_source (source : String) (st : StatsTracker) : StatsTracker :=
  if source ∈ st.sources_processed then st
  else { st with sources_processed := st.sources_processed ++ [source] }

end Stats

/-! ## pastures/reddit and pastures/hackernews: pre-fetch filtering -/

namespace Reddit

/-- The fields of a Reddit post the filter reads (`post["data"]`). -/
structure Post where
  title : String
  stickied : Bool
  is_self : Bool
  url : String
deriving Repr, DecidableEq

/-- One iteration of the `filter_posts` loop of `RedditPasture`: record
blacklist matches on the tracker, keep the post when it is neither
stickied, nor a self post, nor blacklisted. -/
def step (blacklist : List String) (acc : List Post × Option Stats.StatsTracker)
    (p : Post) : List Post × Option Stats.StatsTracker :=
  let titleLower := pyLower p.title
  let bmatches := blacklist.filter fun t => strIn (pyLower t) titleLower
  let tr :=
    if bmatches ≠ [] then
      match acc.2 with
      | some st => some (bmatches.foldl (fun s t => Stats.increment_blacklisted t s) st)
      | none => none
    else acc.2
  if ¬ p.stickied ∧ ¬ p.is_self ∧
      ¬ blacklist.any (fun t => strIn (pyLower t) titleLower) then
    (acc.1 ++ [p], tr)
  else (acc.1, tr)

/-- `RedditPasture.filter_posts`: drops stickied, self and blacklisted-title
posts; records every blacklist match on the optional tracker. -/
def filter_posts (cfg : Base.Config) (tracker : Option Stats.StatsTracker)
    (posts : List Post) : List Post × Option Stats.StatsTracker :=
  posts.foldl (step (Base.get_blacklist cfg)) ([], tracker)

end Reddit

namespace HackerNews

/-- The fields of a Hacker News story the filter reads (via `.get` with an
empty-string default). -/
structure Post where
  title : String
  url : String
deriving Repr, DecidableEq

/-- One iteration of the `filter_posts` loop of `HackerNewsPasture`:
record blacklist matches (on title or URL) on the tracker, keep the post
when no term matches. -/
def step (blacklist : List String) (acc : List Post × Option Stats.StatsTracker)
    (p : Post) : List Post × Option Stats.StatsTracker :=
  let title := pyLower p.title
  let url := pyLower p.url
  let bmatches := blacklist.filter fun t =>
    strIn (pyLower t) title || strIn (pyLower t) url
  let tr :=
    if bmatches ≠ [] then
      match acc.2 with
      | some st => some (bmatches.foldl (fun s t => Stats.increment_blacklisted t s) st)
      | none => none
    else acc.2
  if ¬ blacklist.any (fun t => strIn (pyLower t) title || strIn (pyLower t) url) then
    (acc.1 ++ [p], tr)
  else (acc.1, tr)

/-- `HackerNewsPasture.filter_posts`: drops stories whose title or URL
contains a blacklisted term; records every match on the optional tracker. -/
def filter_posts (cfg : Base.Config) (tracker : Option Stats.StatsTracker)
    (posts : List Post) : List Post × Option Stats.StatsTracker :=
  posts.foldl (step (Base.get_blacklist cfg)) ([], tracker)

end HackerNews

/-! ## pastures/__init__.py: the pasture factory -/

namespace Factory

/-- The registered pasture classes. -/
inductive PastureKind where
  | reddit
  | hackernews
deriving Repr, DecidableEq

/-- `PastureFactory._pasture_types` (only reddit and hackernews are
registered; `RSSPasture` exists in the sources but is never registered). -/
def pastureTypes : List (String × PastureKind) :=
  [("reddit", PastureKind.reddit), ("hackernews", PastureKind.hackernews)]

/-- `PastureFactory._determine_pasture_type`. -/
def determine_pasture_type (cfg : Base.Config) : String :=
  match cfg.ptype with
  | some t => t
  | none =>
    let url := cfg.url.getD ""
    if strIn "reddit.com" url then "reddit"
    else if strIn "hackernews" url || strIn "news.ycombinator.com" url ||
        strIn "hacker-news.firebaseio.com" url then "hackernews"
    else "reddit"

/-- `PastureFactory.create_pasture`: the `ValueError` on an unregistered
type is the `Except.error` case. -/
def create_pasture (cfg : Base.Config) : Except String PastureKind :=
  let t := determine_pasture_type cfg
  match pastureTypes.lookup t with
  | some k => Except.ok k
  | none => Except.error ("Unknown pasture type: " ++ t)

end Factory

/-! ## main.py: merging the global section into a pasture section -/

namespace Main

/-- One section of `config.ini` as a flat string mapping (restricted to the
keys the embedded code reads). -/
structure IniSection where
  url : Option String := none
  ptype : Option String := none
  blacklist : Option String := none
  remove_tags : Option String := none
deriving Repr, DecidableEq

/-- Key-wise global-to-pasture copy: a global value is taken only when the
pasture section lacks the key. -/
def fillKey (sectionVal globalVal : Option String) : Option String :=
  match sectionVal with
  | some v => some v
  | none => globalVal

/-- The config-merge loop of `run_single_scrape` (and of
`scrape_scheduled_pasture`, which is identical): global keys are copied when
absent, and `blacklist` values are concatenated when both are present.  The
resulting mapping is flat: it never contains a `"global"` sub-mapping. -/
def merge_pasture_config (globalSection : Option IniSection) (s : IniSection) :
    Base.Config :=
  match globalSection with
  | none =>
    { url := s.url, ptype := s.ptype, blacklist := s.blacklist
      remove_tags := s.remove_tags, globalCfg := none }
  | some g =>
    let blacklist :=
      match s.blacklist with
      | none => g.blacklist
      | some pb =>
        match g.blacklist with
        | none => some pb
        | some gb =>
          let gs := pyStrip gb
          let ps := pyStrip pb
          if gs ≠ "" ∧ ps ≠ "" then some (gs ++ "," ++ ps)
          else if gs ≠ "" then some gs
          else some pb
    { url := fillKey s.url g.url, ptype := fillKey s.ptype g.ptype
      blacklist := blacklist, remove_tags := fillKey s.remove_tags g.remove_tags
      globalCfg := none }

end Main

/-! ## core/scraper.py: fetching, sanitizing and the per-item pipeline

External effects are oracles: `convert` stands for the BeautifulSoup +
markdownify transformation of the fetched HTML into markdown (an `Except`
because conversion can raise), and the primary/fallback fetches are `Except`
values (the page content, or the exception message).  The output directory
is a small association-list file system. -/

namespace Scraper

/-- A directory of files: path to content. -/
abbrev FS := List (String × String)

/-- Write (create or overwrite) a file. -/
def fsWrite (fs : FS) (path content : String) : FS :=
  match fs with
  | [] => [(path, content)]
  | (p, c) :: rest => if p = path then (p, content) :: rest else (p, c) :: fsWrite rest path content

/-- `os.remove`. -/
def fsRemove : FS → String → FS
  | [], _ => []
  | pc :: rest, path =>
    if pc.1 = path then fsRemove rest path else pc :: fsRemove rest path

/-- Read a file. -/
def fsRead (fs : FS) (path : String) : Option String :=
  match fs with
  | [] => none
  | (p, c) :: rest => if p = path then some c else fsRead rest path

/-- File existence. -/
def fsHas : FS → String → Bool
  | [], _ => false
  | pc :: rest, path => pc.1 = path || fsHas rest path

/-- `os.path.splitext(path)[0]`: everything before the extension, where the
extension is the part after the last dot of the basename, unless the basename
has only leading dots before it. -/
def splitextStem (p : String) : String :=
  match UrlLib.splitLastChar '.' p.data with
  | none => p
  | some (a, b) =>
    if b.contains '/' then p
    else
      let base := match UrlLib.splitLastChar '/' a with
        | some (_, b2) => b2
        | none => a
      if base.all (· = '.') then p else ⟨a⟩

/-- Path of the markdown file written next to the HTML file. -/
def mdPath (filePath : String) : String :=
  splitextStem filePath ++ ".md"

/-- First line of the converted document, stripped
(`f.readline().strip()`). -/
def firstLineStrip (s : String) : String :=
  pyStrip ⟨s.data.takeWhile (· ≠ '\n')⟩

/-- Python truthiness of the optional blacklist argument (`if blacklist:`):
`None` and the empty list are falsy. -/
def blTruthy : Option (List String) → Bool
  | none => false
  | some l => ¬ l.isEmpty

/-- `core/scraper.py::post_process_html`.  `convert` is the oracle for the
tag-stripping + attribute-rewriting + markdownify pipeline applied to the
HTML content; everything after it is translated from the source: write the
markdown next to the HTML file, delete the markdown again (keeping the HTML)
on a post-scrape blacklist match of the first line, otherwise delete the
original HTML; on a conversion exception keep the HTML file. -/
def post_process_html (convert : String → Except String String)
    (blacklist : Option (List String)) (fs : FS) (filePath : String) : FS :=
  match fsRead fs filePath with
  | none => fs
  | some htmlContent =>
    match convert htmlContent with
    | .error _ => fs
    | .ok mdContent =>
      let mdp := mdPath filePath
      let fs1 := fsWrite fs mdp mdContent
      if blTruthy blacklist then
        let titleLower := pyLower (firstLineStrip mdContent)
        let bmatches := (blacklist.getD []).filter fun t => strIn (pyLower t) titleLower
        if bmatches ≠ [] then fsRemove fs1 mdp
        else fsRemove fs1 filePath
      else fsRemove fs1 filePath

/-- The transient-error test of `scrape_url`'s exception handler. -/
def transientError (e : String) : Bool :=
  ["timeout", "dns", "driver", "firefox", "navigation"].any fun t => strIn t (pyLower e)

/-- `core/scraper.py::fallback_scrape_url`: plain GET; on success write the
HTML next to the hash name and post-process it. -/
def fallback_scrape_url (convert : String → Except String String)
    (fetch : Except String String) (url outputDir : String)
    (blacklist : Option (List String)) (fs : FS) : Bool × FS :=
  if Scraper.is_media_url url then (false, fs)
  else
    match fetch with
    | .error _ => (false, fs)
    | .ok text =>
      let fp := outputDir ++ "/" ++ Scraper.hash_url url ++ ".html"
      let fs1 := fsWrite fs fp text
      (true, post_process_html convert blacklist fs1 fp)

/-- `core/scraper.py::scrape_url`: render the page with the driver, write
the HTML under the normalized-hash name, post-process, and return `True`;
on a transient driver failure, fall back once (passing no blacklist);
otherwise fail.  The third component counts fallback invocations. -/
def scrape_url (convert : String → Except String String)
    (primary fallbackFetch : Except String String) (url outputDir : String)
    (blacklist : Option (List String)) (fs : FS) : Bool × FS × Nat :=
  if Scraper.is_media_url url then (false, fs, 0)
  else
    match primary with
    | .ok html =>
      let fp := outputDir ++ "/" ++ Scraper.hash_url url ++ ".html"
      let fs1 := fsWrite fs fp html
      (true, post_process_html convert blacklist fs1 fp, 0)
    | .error e =>
      if transientError e then
        let r := fallback_scrape_url convert fallbackFetch url outputDir none fs
        (r.1, r.2, 1)
      else (false, fs, 0)

/-- The per-item loop body of `core/scraper.py::scrape_pasture`: skip media,
check the dedup gate, scrape (with the pasture blacklist), fall back once
more at orchestrator level when `scrape_url` returned `False`, and update
the processed set and statistics accordingly.  Returns the new processed
set, tracker, file system and the number of fallback invocations. -/
def processItem (convert : String → Except String String)
    (primary fb1 fb2 : Except String String) (url outputDir : String)
    (blacklist : List String) (sourceName : String) (processed : List String)
    (tracker : Option Stats.StatsTracker) (fs : FS) :
    List String × Option Stats.StatsTracker × FS × Nat :=
  if Scraper.is_media_url url then (processed, tracker, fs, 0)
  else if Base.should_scrape_url url processed then
    let r := scrape_url convert primary fb1 url outputDir (some blacklist) fs
    if r.1 then
      (Base.mark_url_processed url processed,
       tracker.map (Stats.increment_scraped sourceName), r.2.1, r.2.2)
    else
      let r2 := fallback_scrape_url convert fb2 url outputDir (some blacklist) r.2.1
      if r2.1 then
        (Base.mark_url_processed url processed,
         tracker.map (Stats.increment_scraped sourceName), r2.2, r.2.2 + 1)
      else (processed, tracker, r2.2, r.2.2 + 1)
  else (processed, tracker.map Stats.increment_duplicate, fs, 0)

/-- The anchor-href rewriting rule of `post_process_html`
(`"/" + href.split("/", 3)[-1]` for an `href` starting with `http`). -/
def rewriteHref (href : String) : String :=
  if pyStartsWith href "http" then "/" ++ listLast (pySplitMax href '/' 3)
  else href

end Scraper

/-! ## Character classes for well-formed URL families used in theorems -/

/-- A printable ASCII host character that cannot interfere with netloc
splitting or bracket checks. -/
def simpleHostChar (c : Char) : Bool :=
  0x20 < c.toNat ∧ c.toNat < 0x7F ∧
    ¬ (c = '/' ∨ c = '?' ∨ c = '#' ∨ c = '[' ∨ c = ']')

/-- A printable ASCII path character that cannot introduce a query,
fragment or path-parameter split. -/
def simplePathChar (c : Char) : Bool :=
  0x20 < c.toNat ∧ c.toNat < 0x7F ∧ ¬ (c = '?' ∨ c = '#' ∨ c = ';')

/-- Specification-side helper: read a per-term blacklist hit count through
the optional tracker (0 when no tracker is attached). -/
def getHitsOpt (o : Option Stats.StatsTracker) (t : String) : Nat :=
  match o with
  | none => 0
  | some st => Stats.getCount st.blacklist_hits_by_term t

/-! # Theorems -/

set_option maxHeartbeats 1000000

/-- Sanity check of the SHA-256 embedding against the FIPS 180-2 test
vector for the message `abc`. -/
theorem sha256_test_vector :
    Sha256.hexDigest (utf8Bytes "abc") =
      "ba7816bf8f01cfea414140de5dae2223b00361a396177a9cb410ff61f20015ad" := by
  decide

/-- The head of a `dropWhile` result never satisfies the predicate. -/
theorem head_dropWhile_not {α} (p : α → Bool) :
    ∀ (l : List α) (c : α), (l.dropWhile p).head? = some c → p c = false := by
  intro l
  induction l with
  | nil => intro c h; simp [List.dropWhile] at h
  | cons a t ih =>
    intro c h
    rw [List.dropWhile_cons] at h
    by_cases hp : p a
    · rw [if_pos hp] at h; exact ih c h
    · rw [if_neg hp] at h
      simp only [List.head?_cons, Option.some.injEq] at h
      subst h
      simp only [Bool.not_eq_true] at hp
      exact hp

/-- `rstrip("/")` never leaves a trailing slash. -/
theorem rstripSlashes_no_trailing (s : String) :
    pyEndsWithChar (Scraper.rstripSlashes s) '/' = false := by
  unfold Scraper.rstripSlashes pyEndsWithChar
  rw [show (String.mk ((s.data.reverse.dropWhile fun c => c = '/').reverse)).data
      = (s.data.reverse.dropWhile fun c => c = '/').reverse from rfl]
  rw [List.getLast?_reverse]
  cases hh : (s.data.reverse.dropWhile fun c => c = '/').head? with
  | none => rfl
  | some c =>
    have hc := head_dropWhile_not _ _ _ hh
    simp only [decide_eq_false_iff_not] at hc
    simp [hc]

/-- The final trailing-slash strip of `normalize_url` either returns the
single string `/` or leaves no trailing slash. -/
theorem finalSlashStrip_shape (n : String) :
    Scraper.finalSlashStrip n = "/" ∨
      pyEndsWithChar (Scraper.finalSlashStrip n) '/' = false := by
  unfold Scraper.finalSlashStrip
  split
  · right; exact rstripSlashes_no_trailing n
  · rename_i hcond
    by_cases hend : pyEndsWithChar n '/' = true
    · left
      have hlen : ¬ n.length > 1 := fun hl => hcond ⟨hend, hl⟩
      obtain ⟨nl⟩ := n
      match nl, hend, hlen with
      | [], hend, _ => simp [pyEndsWithChar] at hend
      | [c], hend, _ =>
        unfold pyEndsWithChar at hend
        simp only [List.getLast?_singleton, decide_eq_true_eq] at hend
        subst hend
        rfl
      | a :: b :: t, _, hlen =>
        exfalso
        apply hlen
        simp [String.length]
    · right
      simp only [Bool.not_eq_true] at hend
      exact hend

/-- C1 counterexample: `https://x.com/a/` and `https://x.com/a` differ only
in a trailing slash (their normalized URLs coincide), yet
`Pasture.hash_url` — which hashes the raw URL — gives them different
digests, and with the hash of the bare URL in the processed set,
`should_scrape_url` still reports the slashed variant as fresh. -/
theorem C1_counterexample :
    Scraper.normalize_url "https://x.com/a/" = Scraper.normalize_url "https://x.com/a" ∧
    Base.hash_url "https://x.com/a/" ≠ Base.hash_url "https://x.com/a" ∧
    Base.should_scrape_url "https://x.com/a/" [Base.hash_url "https://x.com/a"] = true := by
  refine ⟨by decide, by decide, by decide⟩

/-- C1 (amended): the dedup key of `should_scrape_url` and
`mark_url_processed` is the SHA-256 of the raw URL, not of the normalized
URL; the gate is therefore exact on raw-URL hashes: `should_scrape_url`
returns false exactly when the raw hash is in the processed set, and after
`mark_url_processed` the same raw URL is recognized as a duplicate. -/
theorem C1_amended_raw_hash_dedup_gate :
    ∀ (url : String) (processed : List String),
      Base.hash_url url = Sha256.hexDigest (utf8Bytes url) ∧
      (Base.should_scrape_url url processed = false ↔ Base.hash_url url ∈ processed) ∧
      Base.should_scrape_url url (Base.mark_url_processed url processed) = false := by
  intro url processed
  refine ⟨rfl, ?_, ?_⟩
  · unfold Base.should_scrape_url
    simp
  · unfold Base.should_scrape_url Base.mark_url_processed
    by_cases h : Base.hash_url url ∈ processed
    · simp [h]
    · simp [h]

/-- C6 counterexample: normalization is not idempotent.  For
`https://x.com/a#/` the first pass strips the trailing slash out of the
fragment, leaving a bare `#`; the second pass then drops the now-empty
fragment marker. -/
theorem C6_counterexample :
    Scraper.normalize_url "https://x.com/a#/" = "https://x.com/a#" ∧
    Scraper.normalize_url (Scraper.normalize_url "https://x.com/a#/") = "https://x.com/a" ∧
    Scraper.normalize_url (Scraper.normalize_url "https://x.com/a#/") ≠
      Scraper.normalize_url "https://x.com/a#/" := by
  refine ⟨by decide, by decide, by decide⟩

/-- C7 counterexample: in the pipeline's config merge, a pasture section
whose `remove_tags` is `-style` shadows the global `remove_tags` entirely
(the merged flat mapping has no `global` sub-mapping), so the effective
tag-removal set is empty rather than the claimed `script` singleton. -/
theorem C7_counterexample :
    Base.get_tags_to_remove
        (Main.merge_pasture_config
          (some { blacklist := some "spam", remove_tags := some "script,style" })
          { blacklist := some "ads", remove_tags := some "-style" }) = [] ∧
    "script" ∉
      Base.get_tags_to_remove
        (Main.merge_pasture_config
          (some { blacklist := some "spam", remove_tags := some "script,style" })
          { blacklist := some "ads", remove_tags := some "-style" }) := by
  refine ⟨by decide, by decide⟩

/-- C7 (amended): with global blacklist `spam` and source blacklist `ads`
the merged configuration carries `spam,ads` and the effective blacklist
contains both terms; but with global `remove_tags = script,style` and
source override `-style`, the source key shadows the global list in the
flat merge, so the effective tag-removal set is empty — the claimed
`script` singleton arises only when `get_tags_to_remove` is handed a
configuration with an explicit `global` sub-mapping. -/
theorem C7_amended_config_merge :
    Base.get_blacklist
        (Main.merge_pasture_config
          (some { blacklist := some "spam", remove_tags := some "script,style" })
          { blacklist := some "ads", remove_tags := some "-style" }) = ["spam", "ads"] ∧
    (Main.merge_pasture_config
          (some { blacklist := some "spam", remove_tags := some "script,style" })
          { blacklist := some "ads", remove_tags := some "-style" }).blacklist
        = some "spam,ads" ∧
    Base.get_tags_to_remove
        (Main.merge_pasture_config
          (some { blacklist := some "spam", remove_tags := some "script,style" })
          { blacklist := some "ads", remove_tags := some "-style" }) = [] ∧
    Base.get_tags_to_remove
        { remove_tags := some "-style"
          globalCfg := some { remove_tags := some "script,style" } } = ["script"] := by
  refine ⟨by decide, by decide, by decide, by decide⟩

/-- C8 counterexample: the trailing-slash rule removes every trailing
slash, not exactly one: `https://x.com/a//` normalizes to
`https://x.com/a`, not to `https://x.com/a/`. -/
theorem C8_counterexample :
    Scraper.normalize_url "https://x.com/a//" = "https://x.com/a" ∧
    Scraper.normalize_url "https://x.com/a//" ≠ "https://x.com/a/" := by
  refine ⟨by decide, by decide⟩

/-- C8 (amended): `normalize_url` strips all trailing slashes whenever the
whole normalized string is longer than one character and ends in a slash
(so no normalized URL ends in `/` unless it is the unchanged input or the
single string `/`), and the two hash equalities of the claim hold:
`hash("https://x.com/a/") = hash("https://x.com/a")`. -/
theorem C8_amended_trailing_slash :
    (∀ u : String,
      Scraper.normalize_url u = u ∨ Scraper.normalize_url u = "/" ∨
        pyEndsWithChar (Scraper.normalize_url u) '/' = false) ∧
    Scraper.hash_url "https://x.com/a/" = Scraper.hash_url "https://x.com/a" ∧
    Scraper.normalize_url "https://x.com/a//" = "https://x.com/a" := by
  refine ⟨?_, ?_, by decide⟩
  · intro u
    unfold Scraper.normalize_url
    cases h : UrlLib.urlparseE u with
    | error e => left; rfl
    | ok pr =>
      simp only []
      rcases finalSlashStrip_shape (UrlLib.urlunparse { pr with query := Scraper.newQueryOf pr }) with hs | hs
      · right; left; exact hs
      · right; right; exact hs
  · show Sha256.hexDigest (utf8Bytes (Scraper.normalize_url "https://x.com/a/")) =
      Sha256.hexDigest (utf8Bytes (Scraper.normalize_url "https://x.com/a"))
    have h : Scraper.normalize_url "https://x.com/a/" =
        Scraper.normalize_url "https://x.com/a" := by decide
    rw [h]

/-- `splitFirstChar` splits at the first separator after a separator-free
head segment. -/
theorem splitFirstChar_append (sep : Char) :
    ∀ (h rest : List Char), (∀ c ∈ h, c ≠ sep) →
      splitFirstChar sep (h ++ sep :: rest) = some (h, rest) := by
  intro h
  induction h with
  | nil => intro rest _; simp [splitFirstChar]
  | cons a t ih =>
    intro rest hna
    have ha : a ≠ sep := hna a (List.mem_cons_self a t)
    have ihh := ih rest fun c hc => hna c (List.mem_cons_of_mem a hc)
    simp [splitFirstChar, ha, ihh]

/-- C9 counterexample: the 3-way split keeps the whole path, so the anchor
`https://site.com/a/b/c` is rewritten to `/a/b/c` (scheme and host
dropped), not to the claimed `/b/c`. -/
theorem C9_counterexample :
    Scraper.rewriteHref "https://site.com/a/b/c" = "/a/b/c" ∧
    Scraper.rewriteHref "https://site.com/a/b/c" ≠ "/b/c" := by
  refine ⟨by decide, by decide⟩

/-- C9 (amended): an anchor with absolute href `https://<host>/<path>` is
rewritten to the root-relative `/<path>` with the full path kept: the
3-way split drops only the scheme marker and the host. -/
theorem C9_amended_href_rewrite (h p : String) (hh : ∀ c ∈ h.data, c ≠ '/') :
    Scraper.rewriteHref ("https://" ++ h ++ "/" ++ p) = "/" ++ p := by
  obtain ⟨hl⟩ := h
  obtain ⟨pl⟩ := p
  have hdata : ("https://" ++ (⟨hl⟩ : String) ++ "/" ++ (⟨pl⟩ : String)).data
      = ['h', 't', 't', 'p', 's', ':'] ++ '/' :: ('/' :: (hl ++ '/' :: pl)) := by
    show (("https://".data ++ hl) ++ "/".data) ++ pl
        = ['h', 't', 't', 'p', 's', ':'] ++ '/' :: ('/' :: (hl ++ '/' :: pl))
    simp
  have hsw : pyStartsWith ("https://" ++ (⟨hl⟩ : String) ++ "/" ++ (⟨pl⟩ : String)) "http"
      = true := rfl
  unfold Scraper.rewriteHref
  rw [if_pos hsw]
  unfold pySplitMax
  rw [hdata]
  have s1 : splitFirstChar '/' (['h', 't', 't', 'p', 's', ':'] ++ '/' :: ('/' :: (hl ++ '/' :: pl)))
      = some (['h', 't', 't', 'p', 's', ':'], '/' :: (hl ++ '/' :: pl)) :=
    splitFirstChar_append '/' _ _ (by decide)
  have s2 : splitFirstChar '/' ('/' :: (hl ++ '/' :: pl)) = some ([], hl ++ '/' :: pl) := by
    simp [splitFirstChar]
  have s3 : splitFirstChar '/' (hl ++ '/' :: pl) = some (hl, pl) :=
    splitFirstChar_append '/' hl pl hh
  have hsplit : splitMaxL '/' 3 (['h', 't', 't', 'p', 's', ':'] ++ '/' :: ('/' :: (hl ++ '/' :: pl)))
      = [['h', 't', 't', 'p', 's', ':'], [], hl, pl] := by
    show (match splitFirstChar '/' (['h', 't', 't', 'p', 's', ':'] ++ '/' :: ('/' :: (hl ++ '/' :: pl))) with
      | none => [['h', 't', 't', 'p', 's', ':'] ++ '/' :: ('/' :: (hl ++ '/' :: pl))]
      | some (a, b) => a :: splitMaxL '/' 2 b) = _
    rw [s1]
    show ['h', 't', 't', 'p', 's', ':'] ::
        (match splitFirstChar '/' ('/' :: (hl ++ '/' :: pl)) with
          | none => ['/' :: (hl ++ '/' :: pl)]
          | some (a, b) => a :: splitMaxL '/' 1 b) = _
    rw [s2]
    show ['h', 't', 't', 'p', 's', ':'] :: [] ::
        (match splitFirstChar '/' (hl ++ '/' :: pl) with
          | none => [hl ++ '/' :: pl]
          | some (a, b) => a :: splitMaxL '/' 0 b) = _
    rw [s3]
    rfl
  rw [hsplit]
  unfold listLast
  simp

/-! ### File-system and pipeline lemmas -/

theorem fsRead_fsWrite (fs : Scraper.FS) (p c : String) :
    Scraper.fsRead (Scraper.fsWrite fs p c) p = some c := by
  induction fs with
  | nil => simp [Scraper.fsWrite, Scraper.fsRead]
  | cons pc rest ih =>
    by_cases h : pc.1 = p
    · simp [Scraper.fsWrite, Scraper.fsRead, h]
    · simp [Scraper.fsWrite, Scraper.fsRead, h, ih]

theorem fsHas_fsRemove_self (fs : Scraper.FS) (p : String) :
    Scraper.fsHas (Scraper.fsRemove fs p) p = false := by
  induction fs with
  | nil => rfl
  | cons pc rest ih =>
    by_cases h : pc.1 = p
    · rw [Scraper.fsRemove, if_pos h]
      exact ih
    · rw [Scraper.fsRemove, if_neg h, Scraper.fsHas]
      simp [h, ih]

theorem fsHas_fsRemove_other (fs : Scraper.FS) (p q : String) (h : p ≠ q) :
    Scraper.fsHas (Scraper.fsRemove fs q) p = Scraper.fsHas fs p := by
  induction fs with
  | nil => rfl
  | cons pc rest ih =>
    by_cases hq : pc.1 = q
    · have hp : ¬ pc.1 = p := fun hp => h (hp ▸ hq)
      rw [Scraper.fsRemove, if_pos hq, Scraper.fsHas]
      simp [hp, ih]
    · rw [Scraper.fsRemove, if_neg hq, Scraper.fsHas, Scraper.fsHas]
      rw [ih]

theorem fsHas_fsWrite_self (fs : Scraper.FS) (p c : String) :
    Scraper.fsHas (Scraper.fsWrite fs p c) p = true := by
  induction fs with
  | nil => simp [Scraper.fsWrite, Scraper.fsHas]
  | cons pc rest ih =>
    by_cases h : pc.1 = p
    · rw [Scraper.fsWrite, if_pos h, Scraper.fsHas]
      simp [h]
    · rw [Scraper.fsWrite, if_neg h, Scraper.fsHas]
      simp [h, ih]

theorem fsHas_fsWrite_other (fs : Scraper.FS) (p q c : String) (h : p ≠ q) :
    Scraper.fsHas (Scraper.fsWrite fs q c) p = Scraper.fsHas fs p := by
  induction fs with
  | nil =>
    have hne : ¬ q = p := fun hq => h hq.symm
    simp [Scraper.fsWrite, Scraper.fsHas, hne]
  | cons pc rest ih =>
    by_cases hq : pc.1 = q
    · rw [Scraper.fsWrite, if_pos hq, Scraper.fsHas, Scraper.fsHas]
    · rw [Scraper.fsWrite, if_neg hq, Scraper.fsHas, Scraper.fsHas]
      rw [ih]

/-- The markdown path always ends in `d`, so it differs from any path
ending in `l` (such as the written `<hash>.html` file). -/
theorem mdPath_ne_of_ends_l (z : String) (hz : z.data.getLast? = some 'l') :
    Scraper.mdPath z ≠ z := by
  intro he
  have hd : (Scraper.mdPath z).data.getLast? = some 'd' := by
    show ((Scraper.splitextStem z) ++ ".md").data.getLast? = some 'd'
    rw [String.data_append]
    rw [List.getLast?_append]
    rfl
  rw [he, hz] at hd
  simp at hd

/-- The `<hash>.html` file path ends in `l`. -/
theorem htmlPath_ends_l (a : String) : (a ++ ".html").data.getLast? = some 'l' := by
  rw [String.data_append]
  rw [List.getLast?_append]
  rfl

/-- `post_process_html` on a freshly written HTML file whose conversion is
rejected by the post-scrape blacklist: the markdown file is written and
deleted again, the HTML file stays. -/
theorem post_process_reject (convert : String → Except String String)
    (bl : List String) (fs : Scraper.FS) (fp html md : String)
    (hconv : convert html = Except.ok md) (hbl : bl ≠ [])
    (hmatch : bl.filter (fun t => strIn (pyLower t) (pyLower (Scraper.firstLineStrip md))) ≠ []) :
    Scraper.post_process_html convert (some bl) (Scraper.fsWrite fs fp html) fp
      = Scraper.fsRemove
          (Scraper.fsWrite (Scraper.fsWrite fs fp html) (Scraper.mdPath fp) md)
          (Scraper.mdPath fp) := by
  have htr : Scraper.blTruthy (some bl) = true := by
    simp [Scraper.blTruthy, hbl]
  simp only [Scraper.post_process_html, fsRead_fsWrite, hconv, htr, Option.getD,
    if_true, if_pos hmatch]

/-! ### Counting lemmas for the pre-fetch blacklist filters -/

theorem snd_ite {α β : Type} {c : Prop} [Decidable c] (a b : α) (x : β) :
    (if c then (a, x) else (b, x)).2 = x := by
  split <;> rfl

theorem getCount_bump (l : List (String × Nat)) (x t : String) :
    Stats.getCount (Stats.bump l x) t
      = Stats.getCount l t + if x = t then 1 else 0 := by
  induction l with
  | nil =>
    by_cases h : x = t
    · simp [Stats.bump, Stats.getCount, h]
    · simp [Stats.bump, Stats.getCount, h]
  | cons kn rest ih =>
    obtain ⟨k0, n⟩ := kn
    by_cases hk : k0 = x
    · by_cases ht : k0 = t
      · have : x = t := by rw [← hk, ht]
        simp [Stats.bump, Stats.getCount, hk, ht, this]
      · have : ¬ x = t := fun hxt => ht (by rw [hk, hxt])
        simp [Stats.bump, Stats.getCount, hk, ht, this]
    · by_cases ht : k0 = t
      · have hxt : ¬ x = t := fun hxt => hk (by rw [hxt, ← ht])
        have htx : ¬ t = x := fun h => hxt h.symm
        simp [Stats.bump, Stats.getCount, hk, ht, hxt, htx]
      · simp [Stats.bump, Stats.getCount, hk, ht, ih]

theorem getCount_foldl_inc (ms : List String) :
    ∀ (st : Stats.StatsTracker) (t : String),
      Stats.getCount
          ((ms.foldl (fun s x => Stats.increment_blacklisted x s) st).blacklist_hits_by_term)
          t
        = Stats.getCount st.blacklist_hits_by_term t + ms.count t := by
  induction ms with
  | nil => intro st t; simp
  | cons x ms ih =>
    intro st t
    rw [List.foldl_cons, ih]
    rw [show (Stats.increment_blacklisted x st).blacklist_hits_by_term
        = Stats.bump st.blacklist_hits_by_term x from rfl]
    rw [getCount_bump, List.count_cons]
    by_cases h : x = t
    · simp [h]; omega
    · have hbe : (x == t) = false := by simp [h]
      simp [h, hbe]

theorem count_filter_eq (pred : String → Bool) (bl : List String) (t : String) :
    (bl.filter pred).count t = if pred t = true then bl.count t else 0 := by
  induction bl with
  | nil => simp
  | cons b ps ih =>
    by_cases hb : pred b
    · rw [List.filter_cons_of_pos hb, List.count_cons, List.count_cons, ih]
      by_cases hbt : b = t
      · have hpt : pred t = true := hbt ▸ hb
        simp [hbt, hpt]
      · have hbe : (b == t) = false := by simp [hbt]
        simp [hbe]
    · rw [List.filter_cons_of_neg hb, ih, List.count_cons]
      by_cases hpt : pred t = true
      · have hbt : ¬ b = t := fun h => hb (h ▸ hpt)
        have hbe : (b == t) = false := by simp [hbt]
        simp [hpt, hbe]
      · simp [hpt]

/-- The post-list component of one Reddit filter iteration. -/
theorem reddit_step_fst (bl : List String)
    (acc : List Reddit.Post × Option Stats.StatsTracker) (q : Reddit.Post) :
    (Reddit.step bl acc q).1
      = if ¬ q.stickied = true ∧ ¬ q.is_self = true ∧
            ¬ bl.any (fun t => strIn (pyLower t) (pyLower q.title)) = true then
          acc.1 ++ [q]
        else acc.1 := by
  by_cases hc : ¬ q.stickied = true ∧ ¬ q.is_self = true ∧
      ¬ bl.any (fun t => strIn (pyLower t) (pyLower q.title)) = true
  · rw [if_pos hc]
    show (if _ ∧ _ ∧ _ then (acc.1 ++ [q], _) else (acc.1, _)).1 = acc.1 ++ [q]
    rw [if_pos hc]
  · rw [if_neg hc]
    show (if _ ∧ _ ∧ _ then (acc.1 ++ [q], _) else (acc.1, _)).1 = acc.1
    rw [if_neg hc]

/-- Membership characterization of the Reddit filter fold: every element of
the output either came from the accumulator or passes the blacklist. -/
theorem reddit_foldl_mem (bl : List String) :
    ∀ (posts : List Reddit.Post)
      (acc : List Reddit.Post × Option Stats.StatsTracker) (p : Reddit.Post),
      p ∈ (posts.foldl (Reddit.step bl) acc).1 →
      p ∈ acc.1 ∨ ¬ bl.any (fun t => strIn (pyLower t) (pyLower p.title)) = true := by
  intro posts
  induction posts with
  | nil => intro acc p hp; left; exact hp
  | cons q ps ih =>
    intro acc p hp
    rw [List.foldl_cons] at hp
    rcases ih _ p hp with hl | hm
    · rw [reddit_step_fst] at hl
      by_cases hc : ¬ q.stickied = true ∧ ¬ q.is_self = true ∧
          ¬ bl.any (fun t => strIn (pyLower t) (pyLower q.title)) = true
      · rw [if_pos hc] at hl
        rcases List.mem_append.1 hl with h | h
        · left; exact h
        · right
          rw [List.mem_singleton.1 h]
          exact hc.2.2
      · rw [if_neg hc] at hl
        left; exact hl
    · right; exact hm

/-- Tracker characterization of the Reddit filter fold: every blacklist
match of every post is recorded, term by term. -/
theorem reddit_foldl_hits (bl : List String) :
    ∀ (posts : List Reddit.Post) (l : List Reddit.Post)
      (st : Stats.StatsTracker) (t : String),
      getHitsOpt (posts.foldl (Reddit.step bl) (l, some st)).2 t
        = Stats.getCount st.blacklist_hits_by_term t
          + bl.count t *
            (posts.filter fun p => strIn (pyLower t) (pyLower p.title)).length := by
  intro posts
  induction posts with
  | nil => intro l st t; simp [getHitsOpt]
  | cons q ps ih =>
    intro l st t
    rw [List.foldl_cons]
    have hsnd : (Reddit.step bl (l, some st) q).2
        = some (if (bl.filter fun u => strIn (pyLower u) (pyLower q.title)) ≠ [] then
            ((bl.filter fun u => strIn (pyLower u) (pyLower q.title)).foldl
              (fun s u => Stats.increment_blacklisted u s) st)
          else st) := by
      simp only [Reddit.step, snd_ite]
      split
      · rfl
      · rfl
    have hcount : Stats.getCount
        (if (bl.filter fun u => strIn (pyLower u) (pyLower q.title)) ≠ [] then
            ((bl.filter fun u => strIn (pyLower u) (pyLower q.title)).foldl
              (fun s u => Stats.increment_blacklisted u s) st)
          else st).blacklist_hits_by_term t
        = Stats.getCount st.blacklist_hits_by_term t
          + (bl.filter fun u => strIn (pyLower u) (pyLower q.title)).count t := by
      split
      · rw [getCount_foldl_inc]
      · rename_i hemp
        rw [not_not.1 (fun hne => hemp hne)]
        simp
    have hpair : Reddit.step bl (l, some st) q
        = ((Reddit.step bl (l, some st) q).1,
           some (if (bl.filter fun u => strIn (pyLower u) (pyLower q.title)) ≠ [] then
              ((bl.filter fun u => strIn (pyLower u) (pyLower q.title)).foldl
                (fun s u => Stats.increment_blacklisted u s) st)
            else st)) := by
      rw [← hsnd]
    rw [hpair, ih, hcount]
    rw [count_filter_eq]
    by_cases hq : strIn (pyLower t) (pyLower q.title) = true
    · have hfc : List.filter (fun p : Reddit.Post => strIn (pyLower t) (pyLower p.title)) (q :: ps)
          = q :: List.filter (fun p : Reddit.Post => strIn (pyLower t) (pyLower p.title)) ps :=
        List.filter_cons_of_pos hq
      rw [if_pos hq, hfc]
      simp only [List.length_cons]
      ring
    · have hfc : List.filter (fun p : Reddit.Post => strIn (pyLower t) (pyLower p.title)) (q :: ps)
          = List.filter (fun p : Reddit.Post => strIn (pyLower t) (pyLower p.title)) ps :=
        List.filter_cons_of_neg hq
      rw [if_neg hq, hfc]
      omega

/-- The post-list component of one HackerNews filter iteration. -/
theorem hn_step_fst (bl : List String)
    (acc : List HackerNews.Post × Option Stats.StatsTracker) (q : HackerNews.Post) :
    (HackerNews.step bl acc q).1
      = if ¬ bl.any (fun t => strIn (pyLower t) (pyLower q.title) ||
            strIn (pyLower t) (pyLower q.url)) = true then
          acc.1 ++ [q]
        else acc.1 := by
  by_cases hc : ¬ bl.any (fun t => strIn (pyLower t) (pyLower q.title) ||
      strIn (pyLower t) (pyLower q.url)) = true
  · rw [if_pos hc]
    show (if ¬ _ then (acc.1 ++ [q], _) else (acc.1, _)).1 = acc.1 ++ [q]
    rw [if_pos hc]
  · rw [if_neg hc]
    show (if ¬ _ then (acc.1 ++ [q], _) else (acc.1, _)).1 = acc.1
    rw [if_neg hc]

/-- Membership characterization of the HackerNews filter fold. -/
theorem hn_foldl_mem (bl : List String) :
    ∀ (posts : List HackerNews.Post)
      (acc : List HackerNews.Post × Option Stats.StatsTracker) (p : HackerNews.Post),
      p ∈ (posts.foldl (HackerNews.step bl) acc).1 →
      p ∈ acc.1 ∨ ¬ bl.any (fun t => strIn (pyLower t) (pyLower p.title) ||
        strIn (pyLower t) (pyLower p.url)) = true := by
  intro posts
  induction posts with
  | nil => intro acc p hp; left; exact hp
  | cons q ps ih =>
    intro acc p hp
    rw [List.foldl_cons] at hp
    rcases ih _ p hp with hl | hm
    · rw [hn_step_fst] at hl
      by_cases hc : ¬ bl.any (fun t => strIn (pyLower t) (pyLower q.title) ||
          strIn (pyLower t) (pyLower q.url)) = true
      · rw [if_pos hc] at hl
        rcases List.mem_append.1 hl with h | h
        · left; exact h
        · right
          rw [List.mem_singleton.1 h]
          exact hc
      · rw [if_neg hc] at hl
        left; exact hl
    · right; exact hm

/-- Tracker characterization of the HackerNews filter fold. -/
theorem hn_foldl_hits (bl : List String) :
    ∀ (posts : List HackerNews.Post) (l : List HackerNews.Post)
      (st : Stats.StatsTracker) (t : String),
      getHitsOpt (posts.foldl (HackerNews.step bl) (l, some st)).2 t
        = Stats.getCount st.blacklist_hits_by_term t
          + bl.count t *
            (posts.filter fun p => strIn (pyLower t) (pyLower p.title) ||
              strIn (pyLower t) (pyLower p.url)).length := by
  intro posts
  induction posts with
  | nil => intro l st t; simp [getHitsOpt]
  | cons q ps ih =>
    intro l st t
    rw [List.foldl_cons]
    have hsnd : (HackerNews.step bl (l, some st) q).2
        = some (if (bl.filter fun u => strIn (pyLower u) (pyLower q.title) ||
              strIn (pyLower u) (pyLower q.url)) ≠ [] then
            ((bl.filter fun u => strIn (pyLower u) (pyLower q.title) ||
              strIn (pyLower u) (pyLower q.url)).foldl
              (fun s u => Stats.increment_blacklisted u s) st)
          else st) := by
      simp only [HackerNews.step, snd_ite]
      split
      · rfl
      · rfl
    have hcount : Stats.getCount
        (if (bl.filter fun u => strIn (pyLower u) (pyLower q.title) ||
              strIn (pyLower u) (pyLower q.url)) ≠ [] then
            ((bl.filter fun u => strIn (pyLower u) (pyLower q.title) ||
              strIn (pyLower u) (pyLower q.url)).foldl
              (fun s u => Stats.increment_blacklisted u s) st)
          else st).blacklist_hits_by_term t
        = Stats.getCount st.blacklist_hits_by_term t
          + (bl.filter fun u => strIn (pyLower u) (pyLower q.title) ||
              strIn (pyLower u) (pyLower q.url)).count t := by
      split
      · rw [getCount_foldl_inc]
      · rename_i hemp
        rw [not_not.1 (fun hne => hemp hne)]
        simp
    have hpair : HackerNews.step bl (l, some st) q
        = ((HackerNews.step bl (l, some st) q).1,
           some (if (bl.filter fun u => strIn (pyLower u) (pyLower q.title) ||
                strIn (pyLower u) (pyLower q.url)) ≠ [] then
              ((bl.filter fun u => strIn (pyLower u) (pyLower q.title) ||
                strIn (pyLower u) (pyLower q.url)).foldl
                (fun s u => Stats.increment_blacklisted u s) st)
            else st)) := by
      rw [← hsnd]
    rw [hpair, ih, hcount]
    rw [count_filter_eq]
    by_cases hq : (strIn (pyLower t) (pyLower q.title) ||
        strIn (pyLower t) (pyLower q.url)) = true
    · have hfc : List.filter
          (fun p : HackerNews.Post => strIn (pyLower t) (pyLower p.title) ||
            strIn (pyLower t) (pyLower p.url)) (q :: ps)
          = q :: List.filter
              (fun p : HackerNews.Post => strIn (pyLower t) (pyLower p.title) ||
                strIn (pyLower t) (pyLower p.url)) ps :=
        List.filter_cons_of_pos hq
      rw [if_pos hq, hfc]
      simp only [List.length_cons]
      ring
    · have hfc : List.filter
          (fun p : HackerNews.Post => strIn (pyLower t) (pyLower p.title) ||
            strIn (pyLower t) (pyLower p.url)) (q :: ps)
          = List.filter
              (fun p : HackerNews.Post => strIn (pyLower t) (pyLower p.title) ||
                strIn (pyLower t) (pyLower p.url)) ps :=
        List.filter_cons_of_neg hq
      rw [if_neg hq, hfc]
      omega

/-- C2: for every Reddit or HackerNews pasture (with the spec-modelled
`get_blacklist` resolution, since that method is missing from the sources),
`filter_posts` returns no item whose title — or, for HackerNews, URL —
case-insensitively contains a blacklist term, so no such item is handed to
the fetcher, and every blacklist match of every incoming post is recorded
in the tracker's per-term hit counts before exclusion. -/
theorem C2_prefetch_blacklist (cfg : Base.Config) (st : Stats.StatsTracker)
    (rposts : List Reddit.Post) (hposts : List HackerNews.Post) :
    (∀ p ∈ (Reddit.filter_posts cfg (some st) rposts).1,
      ∀ t ∈ Base.get_blacklist cfg, strIn (pyLower t) (pyLower p.title) = false) ∧
    (∀ p ∈ (HackerNews.filter_posts cfg (some st) hposts).1,
      ∀ t ∈ Base.get_blacklist cfg,
        strIn (pyLower t) (pyLower p.title) = false ∧
        strIn (pyLower t) (pyLower p.url) = false) ∧
    (∀ t, getHitsOpt (Reddit.filter_posts cfg (some st) rposts).2 t
      = Stats.getCount st.blacklist_hits_by_term t
        + (Base.get_blacklist cfg).count t
          * (rposts.filter fun p => strIn (pyLower t) (pyLower p.title)).length) ∧
    (∀ t, getHitsOpt (HackerNews.filter_posts cfg (some st) hposts).2 t
      = Stats.getCount st.blacklist_hits_by_term t
        + (Base.get_blacklist cfg).count t
          * (hposts.filter fun p => strIn (pyLower t) (pyLower p.title) ||
              strIn (pyLower t) (pyLower p.url)).length) := by
  refine ⟨?_, ?_, ?_, ?_⟩
  · intro p hp t ht
    rcases reddit_foldl_mem (Base.get_blacklist cfg) rposts ([], some st) p hp with h | h
    · exact absurd h (List.not_mem_nil p)
    · rw [List.any_eq_true] at h
      push_neg at h
      have := h t ht
      simpa using this
  · intro p hp t ht
    rcases hn_foldl_mem (Base.get_blacklist cfg) hposts ([], some st) p hp with h | h
    · exact absurd h (List.not_mem_nil p)
    · rw [List.any_eq_true] at h
      push_neg at h
      have hb : (strIn (pyLower t) (pyLower p.title) ||
          strIn (pyLower t) (pyLower p.url)) = false :=
        Bool.eq_false_iff.mpr (h t ht)
      simpa using hb
  · intro t
    exact reddit_foldl_hits (Base.get_blacklist cfg) rposts [] st t
  · intro t
    exact hn_foldl_hits (Base.get_blacklist cfg) hposts [] st t

/-- C3 counterexample: a converted document whose first line contains the
blacklist term `spam` is deleted (that much of the claim holds), but no
rejection is recorded in the statistics, the raw HTML file stays behind,
and the item is treated as a success: its hash is marked processed and
`articles_scraped` is incremented. -/
theorem C3_counterexample :
    (Scraper.processItem (fun _ => Except.ok "Spam alert\nbody")
        (Except.ok "<html>x</html>") (Except.error "e1") (Except.error "e2")
        "https://x.com/a" "out" ["spam"] "src" [] (some {}) []).1
      = [Base.hash_url "https://x.com/a"] ∧
    ((Scraper.processItem (fun _ => Except.ok "Spam alert\nbody")
        (Except.ok "<html>x</html>") (Except.error "e1") (Except.error "e2")
        "https://x.com/a" "out" ["spam"] "src" [] (some {}) []).2.1.getD
          {}).articles_rejected_blacklist = 0 ∧
    Stats.getCount
      ((Scraper.processItem (fun _ => Except.ok "Spam alert\nbody")
        (Except.ok "<html>x</html>") (Except.error "e1") (Except.error "e2")
        "https://x.com/a" "out" ["spam"] "src" [] (some {}) []).2.1.getD
          {}).blacklist_hits_by_term "spam" = 0 ∧
    ((Scraper.processItem (fun _ => Except.ok "Spam alert\nbody")
        (Except.ok "<html>x</html>") (Except.error "e1") (Except.error "e2")
        "https://x.com/a" "out" ["spam"] "src" [] (some {}) []).2.1.getD
          {}).articles_scraped = 1 ∧
    Scraper.fsHas
      (Scraper.processItem (fun _ => Except.ok "Spam alert\nbody")
        (Except.ok "<html>x</html>") (Except.error "e1") (Except.error "e2")
        "https://x.com/a" "out" ["spam"] "src" [] (some {}) []).2.2.1
      (Scraper.mdPath ("out" ++ "/" ++ Scraper.hash_url "https://x.com/a" ++ ".html"))
      = false ∧
    Scraper.fsHas
      (Scraper.processItem (fun _ => Except.ok "Spam alert\nbody")
        (Except.ok "<html>x</html>") (Except.error "e1") (Except.error "e2")
        "https://x.com/a" "out" ["spam"] "src" [] (some {}) []).2.2.1
      ("out" ++ "/" ++ Scraper.hash_url "https://x.com/a" ++ ".html") = true := by
  refine ⟨by decide, by decide, by decide, by decide, by decide, by decide⟩

/-- C3 (amended): when the first line of the converted document
case-insensitively contains a blacklist term, the converted markdown file is
deleted and not left in the output tree, but the matching terms are only
logged: the statistics are untouched except for `articles_scraped`, the
outcome is reported as success (the orchestrator marks the URL processed and
increments the scraped counter), and the raw HTML file remains in the
output directory. -/
theorem C3_amended_post_scrape_blacklist
    (convert : String → Except String String) (fb1 fb2 : Except String String)
    (html md url outputDir sourceName : String) (bl : List String)
    (processed : List String) (st : Stats.StatsTracker) (fs : Scraper.FS)
    (hmedia : Scraper.is_media_url url = false)
    (hfresh : Base.should_scrape_url url processed = true)
    (hconv : convert html = Except.ok md)
    (hbl : bl ≠ [])
    (hmatch : bl.filter
      (fun t => strIn (pyLower t) (pyLower (Scraper.firstLineStrip md))) ≠ []) :
    Scraper.processItem convert (Except.ok html) fb1 fb2 url outputDir bl
        sourceName processed (some st) fs
      = (Base.mark_url_processed url processed,
         some (Stats.increment_scraped sourceName st),
         Scraper.fsRemove
           (Scraper.fsWrite
             (Scraper.fsWrite fs (outputDir ++ "/" ++ Scraper.hash_url url ++ ".html") html)
             (Scraper.mdPath (outputDir ++ "/" ++ Scraper.hash_url url ++ ".html")) md)
           (Scraper.mdPath (outputDir ++ "/" ++ Scraper.hash_url url ++ ".html")),
         0) ∧
    Scraper.fsHas
      (Scraper.processItem convert (Except.ok html) fb1 fb2 url outputDir bl
        sourceName processed (some st) fs).2.2.1
      (Scraper.mdPath (outputDir ++ "/" ++ Scraper.hash_url url ++ ".html")) = false ∧
    Scraper.fsHas
      (Scraper.processItem convert (Except.ok html) fb1 fb2 url outputDir bl
        sourceName processed (some st) fs).2.2.1
      (outputDir ++ "/" ++ Scraper.hash_url url ++ ".html") = true := by
  have hpp := post_process_reject convert bl fs
    (outputDir ++ "/" ++ Scraper.hash_url url ++ ".html") html md hconv hbl hmatch
  have hne : (outputDir ++ "/" ++ Scraper.hash_url url ++ ".html")
      ≠ Scraper.mdPath (outputDir ++ "/" ++ Scraper.hash_url url ++ ".html") :=
    fun he => mdPath_ne_of_ends_l _ (htmlPath_ends_l _) he.symm
  have heq : Scraper.processItem convert (Except.ok html) fb1 fb2 url outputDir bl
        sourceName processed (some st) fs
      = (Base.mark_url_processed url processed,
         some (Stats.increment_scraped sourceName st),
         Scraper.fsRemove
           (Scraper.fsWrite
             (Scraper.fsWrite fs (outputDir ++ "/" ++ Scraper.hash_url url ++ ".html") html)
             (Scraper.mdPath (outputDir ++ "/" ++ Scraper.hash_url url ++ ".html")) md)
           (Scraper.mdPath (outputDir ++ "/" ++ Scraper.hash_url url ++ ".html")),
         0) := by
    simp only [Scraper.processItem, Scraper.scrape_url, hmedia, hfresh, hpp,
      Bool.false_eq_true, if_false, if_true, Option.map]
  refine ⟨heq, ?_, ?_⟩
  · rw [heq]
    exact fsHas_fsRemove_self _ _
  · rw [heq]
    show Scraper.fsHas (Scraper.fsRemove _ _) _ = true
    rw [fsHas_fsRemove_other _ _ _ hne]
    rw [fsHas_fsWrite_other _ _ _ _ hne]
    exact fsHas_fsWrite_self _ _ _

/-- C4: when the primary fetch succeeds and the raw HTML is written,
`scrape_url` returns `True` whatever the markdown conversion does (success,
exception, or post-scrape blacklist rejection — the conversion oracle is
universally quantified), so the orchestrator marks the URL hash processed
and increments `articles_scraped`; and in the blacklist-rejected case the
raw HTML file remains in the output directory. -/
theorem C4_fetch_success_always_true
    (convert : String → Except String String) (fb1 fb2 : Except String String)
    (html url outputDir sourceName : String) (bl : List String)
    (processed : List String) (st : Stats.StatsTracker) (fs : Scraper.FS)
    (hmedia : Scraper.is_media_url url = false)
    (hfresh : Base.should_scrape_url url processed = true) :
    (Scraper.scrape_url convert (Except.ok html) fb1 url outputDir (some bl) fs).1
      = true ∧
    (Scraper.processItem convert (Except.ok html) fb1 fb2 url outputDir bl
        sourceName processed (some st) fs).1
      = Base.mark_url_processed url processed ∧
    (Scraper.processItem convert (Except.ok html) fb1 fb2 url outputDir bl
        sourceName processed (some st) fs).2.1
      = some (Stats.increment_scraped sourceName st) ∧
    (∀ md, convert html = Except.ok md → bl ≠ [] →
      bl.filter (fun t => strIn (pyLower t) (pyLower (Scraper.firstLineStrip md))) ≠ [] →
      Scraper.fsHas
        (Scraper.processItem convert (Except.ok html) fb1 fb2 url outputDir bl
          sourceName processed (some st) fs).2.2.1
        (outputDir ++ "/" ++ Scraper.hash_url url ++ ".html") = true) := by
  have h1 : (Scraper.scrape_url convert (Except.ok html) fb1 url outputDir (some bl) fs).1
      = true := by
    simp only [Scraper.scrape_url, hmedia, Bool.false_eq_true, if_false]
  refine ⟨h1, ?_, ?_, ?_⟩
  · simp only [Scraper.processItem, Scraper.scrape_url, hmedia, hfresh,
      Bool.false_eq_true, if_false, if_true]
  · simp only [Scraper.processItem, Scraper.scrape_url, hmedia, hfresh,
      Bool.false_eq_true, if_false, if_true, Option.map]
  · intro md hconv hbl hmatch
    exact (C3_amended_post_scrape_blacklist convert fb1 fb2 html md url outputDir
      sourceName bl processed st fs hmedia hfresh hconv hbl hmatch).2.2

/-- C5 counterexample: for an item whose primary fetch dies with a
transient timeout error and whose fallback fetch fails, the fallback is
invoked twice in the same run — once inside `scrape_url`'s exception
handler and once more by the orchestrator loop — not exactly once as
claimed. -/
theorem C5_counterexample :
    Scraper.transientError "Timeout: page load failed" = true ∧
    (Scraper.processItem (fun h => Except.ok h) (Except.error "Timeout: page load failed")
        (Except.error "connection refused") (Except.error "connection refused")
        "https://ex.com/p" "out" [] "src" [] (some {}) []).2.2.2 = 2 ∧
    (Scraper.processItem (fun h => Except.ok h) (Except.error "Timeout: page load failed")
        (Except.error "connection refused") (Except.error "connection refused")
        "https://ex.com/p" "out" [] "src" [] (some {}) []).1 = [] := by
  refine ⟨by decide, by decide, by decide⟩

/-- C5 (amended): on a transient primary failure the fallback strategy is
tried once inside `scrape_url`; if that fallback fails, the orchestrator
invokes the fallback a second time (so a fully failing item sees two
fallback attempts, not one); if every attempt fails the item is skipped,
nothing is written, its hash is not added to the dedup set, and
`should_scrape_url` still accepts it on a later run.  When the first
fallback succeeds, it is the only fallback invocation and the item is
marked processed. -/
theorem C5_amended_fallback_retry
    (convert : String → Except String String)
    (e efb1 efb2 text : String) (url outputDir sourceName : String)
    (bl : List String) (processed : List String) (st : Stats.StatsTracker)
    (fs : Scraper.FS)
    (hmedia : Scraper.is_media_url url = false)
    (htrans : Scraper.transientError e = true)
    (hfresh : Base.should_scrape_url url processed = true) :
    (Scraper.processItem convert (Except.error e) (Except.error efb1) (Except.error efb2)
        url outputDir bl sourceName processed (some st) fs
      = (processed, some st, fs, 2) ∧
      Base.should_scrape_url url
        (Scraper.processItem convert (Except.error e) (Except.error efb1)
          (Except.error efb2) url outputDir bl sourceName processed (some st) fs).1
        = true) ∧
    ((Scraper.processItem convert (Except.error e) (Except.ok text) (Except.error efb2)
        url outputDir bl sourceName processed (some st) fs).2.2.2 = 1 ∧
      (Scraper.processItem convert (Except.error e) (Except.ok text) (Except.error efb2)
        url outputDir bl sourceName processed (some st) fs).1
        = Base.mark_url_processed url processed) := by
  constructor
  · have heq : Scraper.processItem convert (Except.error e) (Except.error efb1)
        (Except.error efb2) url outputDir bl sourceName processed (some st) fs
        = (processed, some st, fs, 2) := by
      simp only [Scraper.processItem, Scraper.scrape_url, Scraper.fallback_scrape_url,
        hmedia, htrans, hfresh, Bool.false_eq_true, if_false, if_true]
    refine ⟨heq, ?_⟩
    rw [heq]
    exact hfresh
  · constructor
    · simp only [Scraper.processItem, Scraper.scrape_url, Scraper.fallback_scrape_url,
        hmedia, htrans, hfresh, Bool.false_eq_true, if_false, if_true]
    · simp only [Scraper.processItem, Scraper.scrape_url, Scraper.fallback_scrape_url,
        hmedia, htrans, hfresh, Bool.false_eq_true, if_false, if_true]

/-- C10 counterexample: an explicit `type = rss` does not select the RSS
adapter; it is rejected as an unknown pasture type, because only `reddit`
and `hackernews` are registered in `_pasture_types`. -/
theorem C10_counterexample :
    Factory.create_pasture { ptype := some "rss", url := some "https://example.com/feed.xml" }
      = Except.error "Unknown pasture type: rss" := rfl

/-- C10 (amended): an explicit `type` takes precedence and selects the
corresponding adapter for the registered variants reddit and hackernews
only; any other explicit type (including `rss`, whose adapter class exists
but is never registered) raises the hard configuration error; without an
explicit type the adapter is inferred by URL substring matching with a
reddit default. -/
theorem C10_amended_adapter_selection :
    ∀ cfg : Base.Config,
      (cfg.ptype = some "reddit" →
        Factory.create_pasture cfg = Except.ok Factory.PastureKind.reddit) ∧
      (cfg.ptype = some "hackernews" →
        Factory.create_pasture cfg = Except.ok Factory.PastureKind.hackernews) ∧
      (∀ t, cfg.ptype = some t → t ≠ "reddit" → t ≠ "hackernews" →
        Factory.create_pasture cfg = Except.error ("Unknown pasture type: " ++ t)) ∧
      (cfg.ptype = none → strIn "reddit.com" (cfg.url.getD "") = true →
        Factory.create_pasture cfg = Except.ok Factory.PastureKind.reddit) ∧
      (cfg.ptype = none → strIn "reddit.com" (cfg.url.getD "") = false →
        (strIn "hackernews" (cfg.url.getD "") ||
          strIn "news.ycombinator.com" (cfg.url.getD "") ||
          strIn "hacker-news.firebaseio.com" (cfg.url.getD "")) = true →
        Factory.create_pasture cfg = Except.ok Factory.PastureKind.hackernews) ∧
      (cfg.ptype = none → strIn "reddit.com" (cfg.url.getD "") = false →
        (strIn "hackernews" (cfg.url.getD "") ||
          strIn "news.ycombinator.com" (cfg.url.getD "") ||
          strIn "hacker-news.firebaseio.com" (cfg.url.getD "")) = false →
        Factory.create_pasture cfg = Except.ok Factory.PastureKind.reddit) := by
  intro cfg
  refine ⟨?_, ?_, ?_, ?_, ?_, ?_⟩
  · intro h
    unfold Factory.create_pasture Factory.determine_pasture_type
    rw [h]
    rfl
  · intro h
    unfold Factory.create_pasture Factory.determine_pasture_type
    rw [h]
    rfl
  · intro t h h1 h2
    unfold Factory.create_pasture Factory.determine_pasture_type
    rw [h]
    have e1 : (t == "reddit") = false := by simpa using h1
    have e2 : (t == "hackernews") = false := by simpa using h2
    simp only [Factory.pastureTypes, List.lookup, e1, e2]
  · intro h hr
    unfold Factory.create_pasture Factory.determine_pasture_type
    rw [h]
    simp only [hr]
    rfl
  · intro h hr hhn
    unfold Factory.create_pasture Factory.determine_pasture_type
    rw [h]
    simp only [hr, hhn]
    rfl
  · intro h hr hhn
    unfold Factory.create_pasture Factory.determine_pasture_type
    rw [h]
    simp only [hr, hhn]
    rfl

/-! ### Lemmas for the normalization idempotence family (C6) -/

theorem strExt (a b : String) (h : a.data = b.data) : a = b := by
  cases a
  cases b
  exact congrArg String.mk h

theorem splitFirstChar_none (sep : Char) :
    ∀ (l : List Char), (∀ c ∈ l, c ≠ sep) → splitFirstChar sep l = none := by
  intro l
  induction l with
  | nil => intro _; rfl
  | cons a t ih =>
    intro h
    have ha : a ≠ sep := h a (List.mem_cons_self a t)
    simp [splitFirstChar, ha, ih fun c hc => h c (List.mem_cons_of_mem a hc)]

theorem spanUntil_stop (stop : Char → Bool) :
    ∀ (a : List Char) (d : Char) (r : List Char),
      (∀ c ∈ a, stop c = false) → stop d = true →
      UrlLib.spanUntil stop (a ++ d :: r) = (a, d :: r) := by
  intro a
  induction a with
  | nil =>
    intro d r _ hd
    simp [UrlLib.spanUntil, List.takeWhile, List.dropWhile, hd]
  | cons c t ih =>
    intro d r ha hd
    have hc : stop c = false := ha c (List.mem_cons_self c t)
    have hat : ∀ x ∈ t, stop x = false := fun x hx => ha x (List.mem_cons_of_mem c hx)
    have iht := ih d r hat hd
    rw [Prod.mk.injEq] at iht
    simp only [UrlLib.spanUntil] at iht ⊢
    simp only [decide_not, Bool.decide_eq_true] at iht
    simp only [List.cons_append, List.takeWhile_cons, List.dropWhile_cons, hc, decide_not]
    simp [iht.1, iht.2]

theorem spanUntil_all (stop : Char → Bool) :
    ∀ (a : List Char), (∀ c ∈ a, stop c = false) →
      UrlLib.spanUntil stop a = (a, []) := by
  intro a
  induction a with
  | nil => intro _; rfl
  | cons c t ih =>
    intro ha
    have hc : stop c = false := ha c (List.mem_cons_self c t)
    have hat : ∀ x ∈ t, stop x = false := fun x hx => ha x (List.mem_cons_of_mem c hx)
    have iht := ih hat
    rw [Prod.mk.injEq] at iht
    simp only [UrlLib.spanUntil] at iht ⊢
    simp only [decide_not, Bool.decide_eq_true] at iht
    simp only [List.takeWhile_cons, List.dropWhile_cons, hc, decide_not]
    simp [iht.1, iht.2]

theorem contains_eq_false_of_forall {l : List Char} {a : Char}
    (h : ∀ c ∈ l, c ≠ a) : l.contains a = false := by
  by_contra hc
  rw [Bool.not_eq_false] at hc
  obtain ⟨x, hx, hbeq⟩ := List.contains_iff_exists_mem_beq.mp hc
  have hax : a = x := beq_iff_eq.mp hbeq
  exact h x hx (hax ▸ rfl)

theorem removeUnsafeBytes_id (l : List Char) (h : ∀ c ∈ l, 0x20 < c.toNat) :
    UrlLib.removeUnsafeBytes l = l := by
  apply List.filter_eq_self.mpr
  intro c hc
  have hgt := h c hc
  simp only [decide_eq_true_eq]
  rintro (rfl | rfl | rfl) <;> exact absurd hgt (by decide)

/-- `urlsplit` on a well-formed `scheme://host/path` URL: the scheme chars
form a valid lower-case scheme, the host has only simple host characters and
the path only simple path characters starting with `/` (or empty). -/
theorem urlsplit_fam (C H P : List Char)
    (hCne : C ≠ [])
    (hCcol : ∀ c ∈ C, c ≠ ':')
    (hCa : UrlLib.asciiAlpha (C.headD ' ') = true)
    (hCs : C.all UrlLib.schemeChar = true)
    (hCl : C.map pyLowerChar = C)
    (hC20 : ∀ c ∈ C, 0x20 < c.toNat)
    (hHne : H ≠ []) (hHc : ∀ c ∈ H, simpleHostChar c = true)
    (hPc : ∀ c ∈ P, simplePathChar c = true)
    (hP0 : P = [] ∨ P.head? = some '/') :
    UrlLib.urlsplitE ⟨C ++ ':' :: '/' :: '/' :: (H ++ P)⟩
      = .ok ⟨⟨C⟩, ⟨H⟩, ⟨P⟩, "", ""⟩ := by
  have hH20 : ∀ c ∈ H, 0x20 < c.toNat :=
    fun c hc => (of_decide_eq_true (hHc c hc)).1
  have hP20 : ∀ c ∈ P, 0x20 < c.toNat :=
    fun c hc => (of_decide_eq_true (hPc c hc)).1
  have hall20 : ∀ c ∈ C ++ ':' :: '/' :: '/' :: (H ++ P), 0x20 < c.toNat := by
    intro c hc
    simp only [List.mem_append, List.mem_cons] at hc
    rcases hc with hc | rfl | rfl | rfl | hc | hc
    · exact hC20 c hc
    · decide
    · decide
    · decide
    · exact hH20 c hc
    · exact hP20 c hc
  obtain ⟨c0, C', rfl⟩ : ∃ c0 C', C = c0 :: C' := by
    cases C with
    | nil => exact absurd rfl hCne
    | cons a t => exact ⟨a, t, rfl⟩
  have hlstrip : UrlLib.lstripControl ((c0 :: C') ++ ':' :: '/' :: '/' :: (H ++ P))
      = (c0 :: C') ++ ':' :: '/' :: '/' :: (H ++ P) := by
    have h0 : 0x20 < c0.toNat := hC20 c0 (List.mem_cons_self _ _)
    unfold UrlLib.lstripControl
    rw [List.cons_append, List.dropWhile_cons]
    have hcnd : (decide (c0.toNat ≤ 0x20)) = false := by
      simp only [decide_eq_false_iff_not]
      omega
    rw [hcnd]
    simp
  have hremove : UrlLib.removeUnsafeBytes ((c0 :: C') ++ ':' :: '/' :: '/' :: (H ++ P))
      = (c0 :: C') ++ ':' :: '/' :: '/' :: (H ++ P) :=
    removeUnsafeBytes_id _ hall20
  have hsplitc : splitFirstChar ':' ((c0 :: C') ++ ':' :: '/' :: '/' :: (H ++ P))
      = some (c0 :: C', '/' :: '/' :: (H ++ P)) :=
    splitFirstChar_append ':' _ _ hCcol
  have hscheme : UrlLib.splitScheme ((c0 :: C') ++ ':' :: '/' :: '/' :: (H ++ P))
      = (c0 :: C', '/' :: '/' :: (H ++ P)) := by
    have hCa0 : UrlLib.asciiAlpha c0 = true := by simpa using hCa
    unfold UrlLib.splitScheme
    rw [hsplitc]
    simp [hCne, hCa0, hCs, hCl]
  have hstopH : ∀ c ∈ H, decide (c = '/' ∨ c = '?' ∨ c = '#') = false := by
    intro c hc
    have h3 := (of_decide_eq_true (hHc c hc)).2.2
    simp only [decide_eq_false_iff_not]
    intro hor
    exact h3 (by tauto)
  have hspan : UrlLib.spanUntil (fun c => decide (c = '/' ∨ c = '?' ∨ c = '#')) (H ++ P)
      = (H, P) := by
    rcases hP0 with rfl | hP0
    · rw [List.append_nil]
      exact spanUntil_all _ H hstopH
    · obtain ⟨P', rfl⟩ : ∃ P', P = '/' :: P' := by
        cases P with
        | nil => simp at hP0
        | cons a t =>
          simp only [List.head?_cons, Option.some.injEq] at hP0
          exact ⟨t, by rw [hP0]⟩
      exact spanUntil_stop _ H '/' P' hstopH (by decide)
  have hlb : H.contains '[' = false := by
    apply contains_eq_false_of_forall
    intro c hc he
    exact (of_decide_eq_true (hHc c hc)).2.2 (Or.inr (Or.inr (Or.inr (Or.inl he))))
  have hrb : H.contains ']' = false := by
    apply contains_eq_false_of_forall
    intro c hc he
    exact (of_decide_eq_true (hHc c hc)).2.2 (Or.inr (Or.inr (Or.inr (Or.inr he))))
  have hfrag : splitFirstChar '#' P = none := by
    apply splitFirstChar_none
    intro c hc he
    exact (of_decide_eq_true (hPc c hc)).2.2 (Or.inr (Or.inl he))
  have hq : splitFirstChar '?' P = none := by
    apply splitFirstChar_none
    intro c hc he
    exact (of_decide_eq_true (hPc c hc)).2.2 (Or.inl he)
  unfold UrlLib.urlsplitE
  simp only [hlstrip, hremove, hscheme, hspan, hlb, hrb, hfrag, hq,
    List.isPrefixOf, List.drop, beq_self_eq_true, Bool.true_and, if_true,
    Bool.false_eq_true, false_and, and_false, or_self, if_false]

theorem except_bind_ok {α β : Type} (v : α) (f : α → Except String β) :
    ((Except.ok v : Except String α) >>= f) = f v := rfl

theorem dropWhile_dropWhile (p : Char → Bool) (l : List Char) :
    (l.dropWhile p).dropWhile p = l.dropWhile p := by
  cases h : l.dropWhile p with
  | nil => rfl
  | cons a t =>
    have ha : p a = false := head_dropWhile_not p l a (by rw [h]; rfl)
    rw [List.dropWhile_cons, ha]
    simp

/-- `urlparse` on a well-formed `scheme://host/path` URL. -/
theorem urlparse_fam (C H P : List Char)
    (hCne : C ≠ [])
    (hCcol : ∀ c ∈ C, c ≠ ':')
    (hCa : UrlLib.asciiAlpha (C.headD ' ') = true)
    (hCs : C.all UrlLib.schemeChar = true)
    (hCl : C.map pyLowerChar = C)
    (hC20 : ∀ c ∈ C, 0x20 < c.toNat)
    (hHne : H ≠ []) (hHc : ∀ c ∈ H, simpleHostChar c = true)
    (hPc : ∀ c ∈ P, simplePathChar c = true)
    (hP0 : P = [] ∨ P.head? = some '/') :
    UrlLib.urlparseE ⟨C ++ ':' :: '/' :: '/' :: (H ++ P)⟩
      = .ok ⟨⟨C⟩, ⟨H⟩, ⟨P⟩, "", "", ""⟩ := by
  have hsemi : P.contains ';' = false := by
    apply contains_eq_false_of_forall
    intro c hc he
    exact (of_decide_eq_true (hPc c hc)).2.2 (Or.inr (Or.inr he))
  unfold UrlLib.urlparseE
  rw [urlsplit_fam C H P hCne hCcol hCa hCs hCl hC20 hHne hHc hPc hP0]
  have hsemi' : ';' ∉ P := fun hm =>
    (of_decide_eq_true (hPc ';' hm)).2.2 (Or.inr (Or.inr rfl))
  simp only [except_bind_ok]
  rw [if_neg (fun h => hsemi' (by simpa using h.2))]
  rfl

/-- Removing trailing slashes from `A ++ B` when `A` ends in a non-slash
character only strips inside `B`. -/
theorem dropWhile_reverse_append (A B : List Char) (a : Char)
    (hA : A.reverse.head? = some a) (ha : a ≠ '/') :
    ((A ++ B).reverse.dropWhile (fun c => c = '/')).reverse
      = A ++ (B.reverse.dropWhile (fun c => c = '/')).reverse := by
  rw [List.reverse_append, List.dropWhile_append]
  by_cases he : (B.reverse.dropWhile (fun c => c = '/')).isEmpty
  · rw [if_pos he]
    obtain ⟨t, hAr⟩ : ∃ t, A.reverse = a :: t := by
      cases hAr : A.reverse with
      | nil => rw [hAr] at hA; simp at hA
      | cons x t =>
        rw [hAr] at hA
        simp only [List.head?_cons, Option.some.injEq] at hA
        exact ⟨t, by rw [hA]⟩
    have hpa : decide (a = '/') = false := by
      simp only [decide_eq_false_iff_not]; exact ha
    rw [hAr, List.dropWhile_cons]
    simp only [hpa, Bool.false_eq_true, if_false]
    rw [← hAr, List.reverse_reverse]
    have hnil : (B.reverse.dropWhile (fun c => c = '/')) = [] := List.isEmpty_iff.mp he
    rw [hnil]
    simp
  · rw [if_neg he, List.reverse_append, List.reverse_reverse]

/-- The final trailing-slash strip on a well-formed reconstructed URL
rstrips exactly the path. -/
theorem finalSlashStrip_fam (C H P : List Char)
    (hHne : H ≠ []) (hHs : ∀ c ∈ H, c ≠ '/') :
    Scraper.finalSlashStrip ⟨C ++ ':' :: '/' :: '/' :: (H ++ P)⟩
      = ⟨C ++ ':' :: '/' :: '/' :: (H ++ (P.reverse.dropWhile (fun c => c = '/')).reverse)⟩ := by
  have hHlast : ∃ b, H.getLast? = some b ∧ b ≠ '/' := by
    cases hb : H.getLast? with
    | none => exact absurd (List.getLast?_eq_none_iff.mp hb) hHne
    | some b => exact ⟨b, rfl, hHs b (List.mem_of_mem_getLast? hb)⟩
  obtain ⟨b, hb, hbs⟩ := hHlast
  cases hPl : P.getLast? with
  | none =>
    have hPnil : P = [] := List.getLast?_eq_none_iff.mp hPl
    subst hPnil
    have hend : pyEndsWithChar ⟨C ++ ':' :: '/' :: '/' :: (H ++ [])⟩ '/' = false := by
      unfold pyEndsWithChar
      have : (C ++ ':' :: '/' :: '/' :: (H ++ [])).getLast? = some b := by
        rw [List.append_nil]
        rw [List.getLast?_append_of_ne_nil C (by simp [hHne])]
        rw [show (':' :: '/' :: '/' :: H) = [':', '/', '/'] ++ H from rfl]
        rw [List.getLast?_append_of_ne_nil _ hHne]
        exact hb
      rw [show (String.mk (C ++ ':' :: '/' :: '/' :: (H ++ []))).data
          = C ++ ':' :: '/' :: '/' :: (H ++ []) from rfl, this]
      simp [hbs]
    unfold Scraper.finalSlashStrip
    rw [if_neg (fun hcnd => by rw [hend] at hcnd; exact absurd hcnd.1 (by simp))]
    simp
  | some d =>
    have hPne : P ≠ [] := by
      intro hnil
      rw [hnil] at hPl
      simp at hPl
    have hlast : (C ++ ':' :: '/' :: '/' :: (H ++ P)).getLast? = some d := by
      rw [List.getLast?_append_of_ne_nil C (by simp)]
      rw [show (':' :: '/' :: '/' :: (H ++ P)) = [':', '/', '/'] ++ (H ++ P) from rfl]
      rw [List.getLast?_append_of_ne_nil _ (by simp [hPne])]
      rw [List.getLast?_append_of_ne_nil _ hPne]
      exact hPl
    have hPrev : P.reverse.head? = some d := by rw [List.head?_reverse]; exact hPl
    by_cases hd : d = '/'
    · subst hd
      have hend : pyEndsWithChar ⟨C ++ ':' :: '/' :: '/' :: (H ++ P)⟩ '/' = true := by
        unfold pyEndsWithChar
        rw [show (String.mk (C ++ ':' :: '/' :: '/' :: (H ++ P))).data
            = C ++ ':' :: '/' :: '/' :: (H ++ P) from rfl, hlast]
        simp
      have hlen : (String.mk (C ++ ':' :: '/' :: '/' :: (H ++ P))).length > 1 := by
        show (C ++ ':' :: '/' :: '/' :: (H ++ P)).length > 1
        simp
        omega
      unfold Scraper.finalSlashStrip
      rw [if_pos ⟨hend, hlen⟩]
      unfold Scraper.rstripSlashes
      apply strExt
      show ((C ++ ':' :: '/' :: '/' :: (H ++ P)).reverse.dropWhile (fun c => c = '/')).reverse
          = C ++ ':' :: '/' :: '/' :: (H ++ (P.reverse.dropWhile (fun c => c = '/')).reverse)
      have hassoc : C ++ ':' :: '/' :: '/' :: (H ++ P)
          = (C ++ ':' :: '/' :: '/' :: H) ++ P := by simp
      rw [hassoc]
      rw [dropWhile_reverse_append (C ++ ':' :: '/' :: '/' :: H) P b
        (by rw [List.head?_reverse]
            rw [List.getLast?_append_of_ne_nil C (by simp [hHne])]
            rw [show (':' :: '/' :: '/' :: H) = [':', '/', '/'] ++ H from rfl]
            rw [List.getLast?_append_of_ne_nil _ hHne]
            exact hb)
        hbs]
      simp
    · have hend : pyEndsWithChar ⟨C ++ ':' :: '/' :: '/' :: (H ++ P)⟩ '/' = false := by
        unfold pyEndsWithChar
        rw [show (String.mk (C ++ ':' :: '/' :: '/' :: (H ++ P))).data
            = C ++ ':' :: '/' :: '/' :: (H ++ P) from rfl, hlast]
        simp [hd]
      have hPid : (P.reverse.dropWhile (fun c => c = '/')).reverse = P := by
        obtain ⟨t, hPr⟩ : ∃ t, P.reverse = d :: t := by
          cases hPr : P.reverse with
          | nil => rw [hPr] at hPrev; simp at hPrev
          | cons x t =>
            rw [hPr] at hPrev
            simp only [List.head?_cons, Option.some.injEq] at hPrev
            exact ⟨t, by rw [hPrev]⟩
        rw [hPr, List.dropWhile_cons]
        simp only [decide_eq_false_iff_not |>.mpr hd, Bool.false_eq_true, if_false]
        rw [← hPr, List.reverse_reverse]
      unfold Scraper.finalSlashStrip
      rw [if_neg (fun hcnd => by rw [hend] at hcnd; exact absurd hcnd.1 (by simp))]
      rw [hPid]

/-- `urlunparse` reassembles a well-formed parse result verbatim. -/
theorem urlunparse_fam (C H P : List Char)
    (hCne : C ≠ []) (hHne : H ≠ [])
    (hP0 : P = [] ∨ P.head? = some '/') :
    UrlLib.urlunparse ⟨⟨C⟩, ⟨H⟩, ⟨P⟩, "", "", ""⟩
      = ⟨C ++ ':' :: '/' :: '/' :: (H ++ P)⟩ := by
  have hnet : (⟨H⟩ : String) ≠ "" := by
    intro he
    exact hHne (congrArg String.data he)
  have hsch : (⟨C⟩ : String) ≠ "" := by
    intro he
    exact hCne (congrArg String.data he)
  have hurl2 : (if ¬ (⟨P⟩ : String) = "" ∧ ¬ pyStartsWith (⟨P⟩ : String) "/" = true
      then "/" ++ (⟨P⟩ : String) else (⟨P⟩ : String)) = (⟨P⟩ : String) := by
    rcases hP0 with rfl | hP0
    · rw [if_neg (fun h => h.1 rfl)]
    · obtain ⟨P', rfl⟩ : ∃ P', P = '/' :: P' := by
        cases P with
        | nil => simp at hP0
        | cons x t =>
          simp only [List.head?_cons, Option.some.injEq] at hP0
          exact ⟨t, by rw [hP0]⟩
      have hps : pyStartsWith (⟨'/' :: P'⟩ : String) "/" = true := by
        unfold pyStartsWith
        rw [show ("/" : String).data = ['/'] from rfl]
        simp [List.isPrefixOf]
      rw [if_neg (fun h => h.2 hps)]
  unfold UrlLib.urlunparse UrlLib.urlunsplit
  simp only [ne_eq, not_true_eq_false, if_false, if_neg (fun h : ("" : String) ≠ "" => h rfl)]
  rw [if_pos (Or.inl hnet)]
  rw [if_pos hsch]
  rw [hurl2]
  apply strExt
  show ((⟨C⟩ : String) ++ ":" ++ ("//" ++ (⟨H⟩ : String) ++ (⟨P⟩ : String))).data
      = C ++ ':' :: '/' :: '/' :: (H ++ P)
  simp [String.data_append, show (":" : String).data = [':'] from rfl,
    show ("//" : String).data = ['/', '/'] from rfl]

/-- `normalize_url` on a well-formed `scheme://host/path` URL rstrips
exactly the trailing slashes of the path. -/
theorem normalize_fam (C H P : List Char)
    (hCne : C ≠ [])
    (hCcol : ∀ c ∈ C, c ≠ ':')
    (hCa : UrlLib.asciiAlpha (C.headD ' ') = true)
    (hCs : C.all UrlLib.schemeChar = true)
    (hCl : C.map pyLowerChar = C)
    (hC20 : ∀ c ∈ C, 0x20 < c.toNat)
    (hHne : H ≠ []) (hHc : ∀ c ∈ H, simpleHostChar c = true)
    (hPc : ∀ c ∈ P, simplePathChar c = true)
    (hP0 : P = [] ∨ P.head? = some '/') :
    Scraper.normalize_url ⟨C ++ ':' :: '/' :: '/' :: (H ++ P)⟩
      = ⟨C ++ ':' :: '/' :: '/' :: (H ++ (P.reverse.dropWhile (fun c => c = '/')).reverse)⟩ := by
  have hHs : ∀ c ∈ H, c ≠ '/' := fun c hc he =>
    (of_decide_eq_true (hHc c hc)).2.2 (Or.inl he)
  unfold Scraper.normalize_url
  rw [urlparse_fam C H P hCne hCcol hCa hCs hCl hC20 hHne hHc hPc hP0]
  show Scraper.normalizeParsed ⟨⟨C⟩, ⟨H⟩, ⟨P⟩, "", "", ""⟩ = _
  unfold Scraper.normalizeParsed
  have hq : Scraper.newQueryOf ⟨⟨C⟩, ⟨H⟩, ⟨P⟩, "", "", ""⟩ = "" := by
    unfold Scraper.newQueryOf
    rw [if_neg (fun h => h rfl)]
  rw [hq]
  show Scraper.finalSlashStrip (UrlLib.urlunparse ⟨⟨C⟩, ⟨H⟩, ⟨P⟩, "", "", ""⟩) = _
  rw [urlunparse_fam C H P hCne hHne hP0]
  exact finalSlashStrip_fam C H P hHne hHs

/-- C6 (amended): normalization is idempotent on well-formed
`http(s)://host/path` URLs — when the host consists of printable
non-delimiter characters and the path (empty or starting with `/`) contains
no query, fragment or path-parameter delimiters, applying `normalize_url` a
second time leaves the result of the first application unchanged.  (On
arbitrary URLs idempotence fails, see the counterexample.) -/
theorem C6_amended_normalize_idempotent_family (S H P : String)
    (hS : S = "http" ∨ S = "https")
    (hHne : H.data ≠ []) (hHc : ∀ c ∈ H.data, simpleHostChar c = true)
    (hPc : ∀ c ∈ P.data, simplePathChar c = true)
    (hP0 : P.data = [] ∨ P.data.head? = some '/') :
    Scraper.normalize_url (Scraper.normalize_url (S ++ "://" ++ H ++ P))
      = Scraper.normalize_url (S ++ "://" ++ H ++ P) := by
  have hfull : (S ++ "://" ++ H ++ P) = ⟨S.data ++ ':' :: '/' :: '/' :: (H.data ++ P.data)⟩ := by
    apply strExt
    simp [String.data_append, show ("://" : String).data = [':', '/', '/'] from rfl]
  rw [hfull]
  have hCne : S.data ≠ [] := by rcases hS with rfl | rfl <;> decide
  have hCcol : ∀ c ∈ S.data, c ≠ ':' := by rcases hS with rfl | rfl <;> decide
  have hCa : UrlLib.asciiAlpha (S.data.headD ' ') = true := by
    rcases hS with rfl | rfl <;> decide
  have hCs : S.data.all UrlLib.schemeChar = true := by rcases hS with rfl | rfl <;> decide
  have hCl : S.data.map pyLowerChar = S.data := by rcases hS with rfl | rfl <;> decide
  have hC20 : ∀ c ∈ S.data, 0x20 < c.toNat := by rcases hS with rfl | rfl <;> decide
  rw [normalize_fam S.data H.data P.data hCne hCcol hCa hCs hCl hC20 hHne hHc hPc hP0]
  have hPc2 : ∀ c ∈ (P.data.reverse.dropWhile (fun c => c = '/')).reverse,
      simplePathChar c = true := by
    intro c hc
    apply hPc
    have h1 : c ∈ P.data.reverse.dropWhile (fun c => c = '/') := List.mem_reverse.mp hc
    have h2 : c ∈ P.data.reverse := (List.dropWhile_sublist _).mem h1
    exact List.mem_reverse.mp h2
  have hP02 : (P.data.reverse.dropWhile (fun c => c = '/')).reverse = [] ∨
      (P.data.reverse.dropWhile (fun c => c = '/')).reverse.head? = some '/' := by
    cases hire : (P.data.reverse.dropWhile (fun c => c = '/')).reverse with
    | nil => exact Or.inl rfl
    | cons a t =>
      right
      have hpre : (P.data.reverse.dropWhile (fun c => c = '/')).reverse <+: P.data :=
        List.reverse_suffix.mp (by rw [List.reverse_reverse]; exact List.dropWhile_suffix _)
      rw [hire] at hpre
      obtain ⟨s, hs⟩ := hpre
      rcases hP0 with hnl | hhd
      · rw [hnl] at hs
        simp at hs
      · have hha : P.data.head? = some a := by rw [← hs]; rfl
        have ha : a = '/' := by
          rw [hhd] at hha
          injection hha with hh
          exact hh.symm
        simp [ha]
  rw [normalize_fam S.data H.data _ hCne hCcol hCa hCs hCl hC20 hHne hHc hPc2 hP02]
  have hidem : ((P.data.reverse.dropWhile (fun c => c = '/')).reverse.reverse.dropWhile
        (fun c => c = '/')).reverse
      = (P.data.reverse.dropWhile (fun c => c = '/')).reverse := by
    rw [List.reverse_reverse, dropWhile_dropWhile]
  rw [hidem]

/-- Witness for C6 (amended): idempotence at the concrete well-formed URL
`https://x.com/a/`. -/
theorem C6_witness :
    Scraper.normalize_url (Scraper.normalize_url ("https" ++ "://" ++ "x.com" ++ "/a/"))
      = Scraper.normalize_url ("https" ++ "://" ++ "x.com" ++ "/a/") :=
  C6_amended_normalize_idempotent_family "https" "x.com" "/a/" (Or.inr rfl)
    (by decide) (by decide) (by decide) (by decide)

/-- Witness for C1: after marking, the same raw URL is recognized as a
duplicate on a concrete input. -/
theorem C1_witness :
    Base.should_scrape_url "https://a.com/x"
      (Base.mark_url_processed "https://a.com/x" []) = false :=
  (C1_amended_raw_hash_dedup_gate "https://a.com/x" []).2.2

/-- Witness for C2: on a concrete Reddit run with blacklist `spam`, a
surviving post's title does not contain the term. -/
theorem C2_witness :
    strIn (pyLower "spam") (pyLower "Hello world") = false :=
  (C2_prefetch_blacklist { blacklist := some "spam" } {}
      [{ title := "Hello world", stickied := false, is_self := false,
         url := "https://a.com/x" }] []).1
    { title := "Hello world", stickied := false, is_self := false,
      url := "https://a.com/x" }
    (by decide) "spam" (by decide)

/-- Witness for C3 (amended): on a concrete blacklisted conversion, the
markdown file is absent from the resulting directory. -/
theorem C3_witness :
    Scraper.fsHas
      (Scraper.processItem (fun _ => Except.ok "Bad spam title\nrest")
        (Except.ok "<h1>t</h1>") (Except.error "x") (Except.error "x")
        "https://news.site/story" "o" ["spam"] "s" [] (some {}) []).2.2.1
      (Scraper.mdPath ("o" ++ "/" ++ Scraper.hash_url "https://news.site/story" ++ ".html"))
      = false :=
  (C3_amended_post_scrape_blacklist (fun _ => Except.ok "Bad spam title\nrest")
    (Except.error "x") (Except.error "x") "<h1>t</h1>" "Bad spam title\nrest"
    "https://news.site/story" "o" "s" ["spam"] [] {} []
    (by decide) (by decide) rfl (by decide) (by decide)).2.1

/-- Witness for C4: a concrete fetch success with a crashing converter
still reports success. -/
theorem C4_witness :
    (Scraper.scrape_url (fun _ => Except.error "boom") (Except.ok "<p>x</p>")
      (Except.error "f") "https://news.site/a" "o" (some ["b"]) []).1 = true :=
  (C4_fetch_success_always_true (fun _ => Except.error "boom") (Except.error "f")
    (Except.error "f2") "<p>x</p>" "https://news.site/a" "o" "s" ["b"] [] {} []
    (by decide) (by decide)).1

/-- Witness for C5 (amended): a concrete transient failure with failing
fallbacks leaves the state unchanged after two fallback calls. -/
theorem C5_witness :
    Scraper.processItem (fun h => Except.ok h) (Except.error "timeout while loading")
        (Except.error "a") (Except.error "b") "https://s.com/x" "o" [] "s" []
        (some {}) []
      = ([], some {}, [], 2) :=
  ((C5_amended_fallback_retry (fun h => Except.ok h) "timeout while loading" "a" "b"
    "page" "https://s.com/x" "o" "s" [] [] {} []
    (by decide) (by decide) (by decide)).1).1

/-- Witness for C8 (amended): the universally quantified disjunct applied
to a concrete URL. -/
theorem C8_witness :
    Scraper.normalize_url "https://q.io/p/" = "https://q.io/p/" ∨
    Scraper.normalize_url "https://q.io/p/" = "/" ∨
    pyEndsWithChar (Scraper.normalize_url "https://q.io/p/") '/' = false :=
  C8_amended_trailing_slash.1 "https://q.io/p/"

/-- Witness for C9 (amended): the general rewrite rule on a concrete
host and path. -/
theorem C9_witness :
    Scraper.rewriteHref ("https://" ++ "news.example.org" ++ "/" ++ "x/y") = "/" ++ "x/y" :=
  C9_amended_href_rewrite "news.example.org" "x/y" (by decide)

/-- Witness for C10 (amended): an unregistered explicit type is rejected
on a concrete configuration. -/
theorem C10_witness :
    Factory.create_pasture { ptype := some "atom", url := some "https://f.io/feed" }
      = Except.error ("Unknown pasture type: " ++ "atom") :=
  (C10_amended_adapter_selection { ptype := some "atom", url := some "https://f.io/feed" }).2.2.1
    "atom" rfl (by decide) (by decide)

end Pasture
